import Mathlib

/-!
# Section navigation, modal and ray-pick of the 3D portfolio (`src/js/main.js`)

A shallow embedding of the module-level state of `main.js` and of the event
handlers that mutate it.  JavaScript numbers that carry section indices are
`Int`; pixel coordinates and wheel deltas are `ℚ`.  `setTimeout` is an explicit
list of pending timers and a clock `now` (milliseconds); the event loop is the
step `runTimer`, which runs the pending callback with the earliest due time once
that time has been reached.  The parts of the page the handlers write (class
lists, text contents, styles) are fields of the state.  The quality tier of
`getDeviceQuality` and one frame of `animate` over the values of the 3D scene it
writes are embedded as well, with exact rational arithmetic and `Math.sin`,
`Math.cos` as parameters.  Where rounding matters, in the repeated camera easing,
`animateCamera` carries the rounding as a parameter and `roundDouble` is rounding
to the nearest binary64 number.
-/

namespace Portfolio

/-! ## Static data (`src/js/data.js`) -/

/-- One entry of `projects` in `data.js`; `liveUrl` may be `null`. -/
structure Project where
  title : String
  description : String
  stack : List String
  githubUrl : String
  liveUrl : Option String
deriving DecidableEq, Repr

/-- The array `projects` of `data.js` (the commented-out entries are not part of it). -/
def projects : List Project :=
  [ { title := "3D Portfolio",
      description := "An interactive 3D portfolio experience built with Three.js featuring scroll-based navigation, dynamic lighting, and glassmorphism UI. The portfolio you're currently viewing!",
      stack := ["Three.js", "GSAP", "JavaScript", "CSS3"],
      githubUrl := "https://github.com/",
      liveUrl := some "#" },
    { title := "Writing On Air",
      description := "A computer-vision based application that allows users to write in the air using hand gestures.",
      stack := ["Python", "OpenCV", "Mediapipe"],
      githubUrl := "https://github.com/CodeItAlone/WritingOnAir",
      liveUrl := some "https://example.com" },
    { title := "FocusBuddy",
      description := "FocusBuddy is a social productivity app that enforces real execution by making progress public within small groups and penalizing inconsistency instead of rewarding fake streaks.",
      stack := ["React Native", "Spring Boot", "SQL", "Git & Github"],
      githubUrl := "https://github.com/CodeItAlone/FocussBuddy",
      liveUrl := some "https://example.com" },
    { title := "My Notes",
      description := "A modern, full-stack CRUD note-taking application built with Next.js, MongoDB, and Tailwind CSS.",
      stack := ["Next.js", "MongoDB", "Tailwind CSS"],
      githubUrl := "https://github.com/CodeItAlone/My-Notes",
      liveUrl := some "https://example.com" } ]

/-! ## Constants (`main.js`, lines 11-20) -/

/-- The constant `SECTION_COUNT`. -/
def SECTION_COUNT : Int := 5

/-- The array `overlayIds` local to `goToSection`. -/
def overlayIds : List String :=
  ["hero-overlay", "about-overlay", "skills-overlay", "projects-overlay", "contact-overlay"]

/-! ## Deferred callbacks -/

/-- The four closures `main.js` hands to `setTimeout`. -/
inductive Callback where
  /-- `() => { overlay = getElementById(overlayIds[index]); if (overlay) overlay.classList.add('active') }` -/
  | reveal (index : Int)
  /-- `() => { isTransitioning = false }` -/
  | settle
  /-- `() => { scrollCooldown = false }` -/
  | cooldownEnd
  /-- `() => { loader.classList.add('hidden') }` of `init` -/
  | hideLoader
deriving DecidableEq, Repr

/-- A pending `setTimeout` entry: the time it becomes due and its callback. -/
structure Timer where
  due : Nat
  cb : Callback
deriving DecidableEq, Repr

/-! ## State -/

/-- The module-level variables of `main.js` together with the page state its handlers write. -/
structure State where
  /-- milliseconds on the event-loop clock -/
  now : Nat
  /-- pending `setTimeout` entries, in scheduling order -/
  timers : List Timer
  currentSection : Int
  targetSection : Int
  isTransitioning : Bool
  scrollCooldown : Bool
  reducedMotion : Bool
  mouseX : ℚ
  mouseY : ℚ
  modalOpen : Bool
  touchStartY : ℚ
  /-- `pointer.x` of the ray-pick pointer -/
  pointerX : ℚ
  /-- `pointer.y` of the ray-pick pointer -/
  pointerY : ℚ
  /-- `data-section` values whose `.nav-link` elements carry the class `active` -/
  activeNavLinks : List Int
  /-- `data-section` values whose `.indicator` elements carry the class `active` -/
  activeIndicators : List Int
  /-- ids of the `.overlay-section` elements that carry the class `active` -/
  activeOverlays : List String
  /-- `style.opacity` of `.scroll-indicator` -/
  scrollIndicatorOpacity : String
  /-- `textContent` of `#modal-title` -/
  modalTitle : String
  /-- `textContent` of `#modal-description` -/
  modalDescription : String
  /-- the string assigned to `innerHTML` of `#modal-stack` -/
  modalStack : String
  /-- `href` of `#modal-github` -/
  githubHref : String
  /-- `href` of `#modal-live` -/
  liveHref : String
  /-- `style.display` of `#modal-live` -/
  liveDisplay : String
  /-- whether `#project-modal` carries the class `visible` -/
  modalVisible : Bool
  /-- attribute `aria-hidden` of `#project-modal` -/
  modalAriaHidden : String
  /-- whether `#loader` carries the class `hidden` -/
  loaderHidden : Bool
deriving DecidableEq, Repr

/-- The call `setTimeout(cb, delay)`: the entry becomes due `delay` ms from now. -/
def setTimeout (cb : Callback) (delay : Nat) (s : State) : State :=
  { s with timers := s.timers ++ [{ due := s.now + delay, cb := cb }] }

/-- The lookup `overlayIds[index]`; `none` is `undefined`. -/
def overlayId (index : Int) : Option String :=
  if 0 ≤ index then overlayIds.get? index.toNat else none

/-- The call `classList.add(c)` on a class list kept as the list of its members. -/
def classAdd (c : String) (l : List String) : List String :=
  if c ∈ l then l else l ++ [c]

/-- Running a deferred callback. -/
def fire (cb : Callback) (s : State) : State :=
  match cb with
  | .reveal index =>
    match overlayId index with
    | some id => { s with activeOverlays := classAdd id s.activeOverlays }
    | none => s
  | .settle => { s with isTransitioning := false }
  | .cooldownEnd => { s with scrollCooldown := false }
  | .hideLoader => { s with loaderHidden := true }

/-! ## Modal (`main.js`, lines 732-764) -/

/-- The lookup `projects[index]`; `none` is `undefined`. -/
def projectAt (index : Int) : Option Project :=
  if 0 ≤ index then projects.get? index.toNat else none

/-- The markup `project.stack.map(s => <span class="stack-badge">s</span>).join('')`. -/
def stackMarkup (stack : List String) : String :=
  String.join (stack.map fun t => "<span class=\"stack-badge\">" ++ t ++ "</span>")

/-- JavaScript truthiness of `project.liveUrl`: neither `null` nor the empty string. -/
def truthyUrl : Option String → Bool
  | some u => u != ""
  | none => false

/-- The function `openModal(index)`. -/
def openModal (index : Int) (s : State) : State :=
  match projectAt index with
  | none => s
  | some project =>
    let s1 := { s with
      modalOpen := true,
      modalTitle := project.title,
      modalDescription := project.description,
      modalStack := stackMarkup project.stack,
      githubHref := project.githubUrl }
    let s2 :=
      if truthyUrl project.liveUrl then
        { s1 with liveHref := project.liveUrl.getD "", liveDisplay := "inline-flex" }
      else
        { s1 with liveDisplay := "none" }
    { s2 with modalVisible := true, modalAriaHidden := "false" }

/-- The function `openModal(index)` read against a project table `table` in place of the
imported constant `projects` (`data.js` keeps, commented out, an entry whose `liveUrl` is
`null`); `openModal index` is `openModalIn projects index`. -/
def openModalIn (table : List Project) (index : Int) (s : State) : State :=
  match (if 0 ≤ index then table.get? index.toNat else none) with
  | none => s
  | some project =>
    let s1 := { s with
      modalOpen := true,
      modalTitle := project.title,
      modalDescription := project.description,
      modalStack := stackMarkup project.stack,
      githubHref := project.githubUrl }
    let s2 :=
      if truthyUrl project.liveUrl then
        { s1 with liveHref := project.liveUrl.getD "", liveDisplay := "inline-flex" }
      else
        { s1 with liveDisplay := "none" }
    { s2 with modalVisible := true, modalAriaHidden := "false" }

/-- The function `closeModal()`. -/
def closeModal (s : State) : State :=
  { s with modalOpen := false, modalVisible := false, modalAriaHidden := "true" }

/-! ## Section navigation (`main.js`, lines 770-801) -/

/-- The function `goToSection(index)`. -/
def goToSection (index : Int) (s : State) : State :=
  if index < 0 ∨ index ≥ SECTION_COUNT ∨ index = s.currentSection ∨ s.isTransitioning = true then s
  else
    let s1 := { s with isTransitioning := true, targetSection := index }
    let s2 := { s1 with activeNavLinks := [index], activeIndicators := [index] }
    let s3 := { s2 with activeOverlays := [] }
    let s4 := setTimeout (.reveal index) 400 s3
    let s5 := { s4 with scrollIndicatorOpacity := if index = 0 then "1" else "0" }
    let s6 := { s5 with currentSection := index }
    setTimeout .settle 1200 s6

/-! ## Input handlers (`main.js`, lines 807-899) -/

/-- The function `Math.sign` on a finite number. -/
def mathSign (x : ℚ) : Int :=
  if 0 < x then 1 else if x < 0 then -1 else 0

/-- The function `onWheel(e)`, with `deltaY = e.deltaY`. -/
def onWheel (deltaY : ℚ) (s : State) : State :=
  if s.scrollCooldown = true ∨ s.modalOpen = true then s
  else
    let delta := mathSign deltaY
    let next := s.currentSection + delta
    if 0 ≤ next ∧ next < SECTION_COUNT then
      let s1 := goToSection next s
      let s2 := { s1 with scrollCooldown := true }
      setTimeout .cooldownEnd 1000 s2
    else s

/-- The function `onTouchStart(e)`, with `clientY = e.touches[0].clientY`. -/
def onTouchStart (clientY : ℚ) (s : State) : State :=
  { s with touchStartY := clientY }

/-- The function `onTouchEnd(e)`, with `touchEndY = e.changedTouches[0].clientY`. -/
def onTouchEnd (touchEndY : ℚ) (s : State) : State :=
  if s.modalOpen = true then s
  else
    let diff := s.touchStartY - touchEndY
    if |diff| > 50 then
      let delta : Int := if diff > 0 then 1 else -1
      let next := s.currentSection + delta
      if 0 ≤ next ∧ next < SECTION_COUNT ∧ s.scrollCooldown = false then
        let s1 := goToSection next s
        let s2 := { s1 with scrollCooldown := true }
        setTimeout .cooldownEnd 1000 s2
      else s
    else s

/-- The call `parseInt(key)` on a string of decimal digits. -/
def parseInt (key : String) : Int :=
  key.toList.foldl (fun n c => 10 * n + ((c.toNat : Int) - 48)) 0

/-- The function `onKeyDown(e)`, with `key = e.key`. -/
def onKeyDown (key : String) (s : State) : State :=
  if s.modalOpen = true then
    if key = "Escape" then closeModal s else s
  else if key = "ArrowDown" ∨ key = "PageDown" then goToSection (s.currentSection + 1) s
  else if key = "ArrowUp" ∨ key = "PageUp" then goToSection (s.currentSection - 1) s
  else if key = "Home" then goToSection 0 s
  else if key = "End" then goToSection (SECTION_COUNT - 1) s
  else if key = "1" ∨ key = "2" ∨ key = "3" ∨ key = "4" ∨ key = "5" then
    goToSection (parseInt key - 1) s
  else s

/-- The function `onMouseMove(e)`, with the window size read at the event. -/
def onMouseMove (clientX clientY innerWidth innerHeight : ℚ) (s : State) : State :=
  let mx := (clientX / innerWidth) * 2 - 1
  let my := -(clientY / innerHeight) * 2 + 1
  { s with mouseX := mx, mouseY := my, pointerX := mx, pointerY := my }

/-- A card group of `projectMeshes`: `userData.projectIndex`, `none` when undefined. -/
structure CardGroup where
  projectIndex : Option Int
deriving DecidableEq, Repr

/-- One element of the array returned by `raycaster.intersectObjects`: the parent of the
struck object, `none` when it is `null`. -/
structure Intersection where
  parent : Option CardGroup
deriving DecidableEq, Repr

/-- The function `onClick(e)`.  The array `intersects` is what `raycaster.intersectObjects`
returns for the current pointer and camera (nearest first); the ray caster itself belongs to
the rendering library. -/
def onClick (intersects : List Intersection) (s : State) : State :=
  if s.currentSection ≠ 3 ∨ s.modalOpen = true then s
  else
    match intersects with
    | [] => s
    | hit :: _ =>
      match hit.parent with
      | none => s
      | some group =>
        match group.projectIndex with
        | none => s
        | some k => openModal k s

/-- The reduced-motion toggle's click listener. -/
def toggleMotion (s : State) : State :=
  { s with reducedMotion := !s.reducedMotion }

/-! ## Event loop -/

/-- The pending timer that runs next: the earliest due, the first scheduled among equals. -/
def earliest : List Timer → Option Timer
  | [] => none
  | t :: ts =>
    match earliest ts with
    | none => some t
    | some u => if t.due ≤ u.due then some t else some u

/-- One turn of the event loop's timer phase: the next pending timer runs if it is due. -/
def runTimer (s : State) : State :=
  match earliest s.timers with
  | none => s
  | some t =>
    if t.due ≤ s.now then fire t.cb { s with timers := s.timers.erase t } else s

/-- Everything that can happen to the page between two states. -/
inductive Event where
  /-- click on a nav link, an indicator or a call-to-action button with `data-section = i` -/
  | navClick (i : Int)
  | wheel (deltaY : ℚ)
  | touchStart (clientY : ℚ)
  | touchEnd (clientY : ℚ)
  | keyDown (key : String)
  | mouseMove (clientX clientY innerWidth innerHeight : ℚ)
  /-- click on the window, with the intersections the ray caster reports -/
  | click (intersects : List Intersection)
  /-- click on the project card of the grid with `data-index = i` -/
  | cardClick (i : Nat)
  /-- click on the close button or on the modal backdrop -/
  | closeClick
  | motionToggle
  /-- `d` milliseconds pass -/
  | elapse (d : Nat)
  /-- the event loop runs the next due timer -/
  | timer
deriving DecidableEq, Repr

/-- The effect of one event. -/
def step (e : Event) (s : State) : State :=
  match e with
  | .navClick i => goToSection i s
  | .wheel deltaY => onWheel deltaY s
  | .touchStart y => onTouchStart y s
  | .touchEnd y => onTouchEnd y s
  | .keyDown key => onKeyDown key s
  | .mouseMove x y w h => onMouseMove x y w h s
  | .click intersects => onClick intersects s
  | .cardClick i => openModal i s
  | .closeClick => closeModal s
  | .motionToggle => toggleMotion s
  | .elapse d => { s with now := s.now + d }
  | .timer => runTimer s

/-- The effect of a sequence of events, first to last. -/
def run (es : List Event) (s : State) : State :=
  es.foldl (fun st e => step e st) s

/-- The state right after the module has been evaluated: the `let` initialisers of lines
25-33, 689 and 821, and the loader timer of `init`.  Page contents come from the HTML document
and are left free. -/
def Initial (s : State) : Prop :=
  s.currentSection = 0 ∧ s.targetSection = 0 ∧ s.isTransitioning = false ∧
  s.scrollCooldown = false ∧ s.mouseX = 0 ∧ s.mouseY = 0 ∧ s.modalOpen = false ∧
  s.touchStartY = 0 ∧ s.pointerX = 0 ∧ s.pointerY = 0 ∧
  s.timers = [{ due := s.now + 1500, cb := .hideLoader }]

/-- States the page can be in: an initial state followed by finitely many events. -/
def Reachable (s : State) : Prop :=
  ∃ s0 es, Initial s0 ∧ s = run es s0

/-- A page right after load, with the contents a freshly loaded document shows: the hero
panel and the first nav markers active, the modal empty and hidden. -/
def homeState : State :=
  { now := 0, timers := [{ due := 1500, cb := .hideLoader }],
    currentSection := 0, targetSection := 0, isTransitioning := false,
    scrollCooldown := false, reducedMotion := false, mouseX := 0, mouseY := 0,
    modalOpen := false, touchStartY := 0, pointerX := 0, pointerY := 0,
    activeNavLinks := [0], activeIndicators := [0], activeOverlays := ["hero-overlay"],
    scrollIndicatorOpacity := "1", modalTitle := "", modalDescription := "",
    modalStack := "", githubHref := "", liveHref := "", liveDisplay := "",
    modalVisible := false, modalAriaHidden := "true", loaderHidden := false }

/-- The page at rest on section 1 (About): from `homeState`, key `2`, then both callbacks
of the request run. -/
def aboutState : State :=
  run [.keyDown "2", .elapse 1200, .timer, .timer] homeState

/-! ## Device capability (`main.js`, lines 38-48, 56-58, 141-143, 477, 536, 635) -/

/-- The three strings `getDeviceQuality` returns. -/
inductive Quality where
  | low
  | medium
  | high
deriving DecidableEq, Repr

/-- Whether the characters `w` occur consecutively somewhere in `l`. -/
def occursIn (w : List Char) : List Char → Bool
  | [] => w.isEmpty
  | c :: cs => w.isPrefixOf (c :: cs) || occursIn w cs

/-- The test `/Android|iPhone|iPad|iPod/i.test(navigator.userAgent)`. -/
def isMobile (userAgent : String) : Bool :=
  let ua := userAgent.toList.map Char.toLower
  occursIn "android".toList ua || occursIn "iphone".toList ua ||
    occursIn "ipad".toList ua || occursIn "ipod".toList ua

/-- The function `getDeviceQuality()`.  `hardwareConcurrency` is
`navigator.hardwareConcurrency`, `none` when the browser does not report it. -/
def getDeviceQuality (hardwareConcurrency : Option Int) (userAgent : String) : Quality :=
  let cores : Int :=
    match hardwareConcurrency with
    | none => 2
    | some c => if c = 0 then 2 else c
  if isMobile userAgent = true ∨ cores ≤ 2 then .low
  else if cores ≤ 4 then .medium
  else .high

/-- The constant `particleCount`. -/
def particleCount (quality : Quality) : Nat :=
  if quality = .high then 2000 else if quality = .medium then 1000 else 400

/-- The constant `dpr`, with `devicePixelRatio = window.devicePixelRatio`. -/
def dpr (quality : Quality) (devicePixelRatio : ℚ) : ℚ :=
  if quality = .low then 1 else min devicePixelRatio 2

/-- The renderer option `antialias`. -/
def antialias (quality : Quality) : Bool :=
  decide (quality ≠ .low)

/-- The renderer option `powerPreference`. -/
def powerPreference (quality : Quality) : String :=
  if quality = .low then "low-power" else "high-performance"

/-- The field `GALAXY.armParticles`. -/
def armParticles (quality : Quality) : Nat :=
  if quality = .high then 12000 else if quality = .medium then 7000 else 3500

/-- The field `GALAXY.bulgeParticles`. -/
def bulgeParticles (quality : Quality) : Nat :=
  if quality = .high then 4000 else if quality = .medium then 2500 else 1200

/-- The field `GALAXY.hazeParticles`. -/
def hazeParticles (quality : Quality) : Nat :=
  if quality = .high then 3000 else if quality = .medium then 1500 else 800

/-- The constant `asteroidCount`. -/
def asteroidCount (quality : Quality) : Nat :=
  if quality = .high then 600 else if quality = .medium then 300 else 150

/-- The length of `allSkills`: the three lists of `skills` in `data.js` have 8, 7 and 7
entries. -/
def allSkillsLength : Nat := 8 + 7 + 7

/-- The constant `orbCount`. -/
def orbCount (quality : Quality) : Nat :=
  min allSkillsLength (if quality = .low then 8 else 18)

/-- The constant `gridSize`. -/
def gridSize (quality : Quality) : Nat :=
  if quality = .low then 6 else 10

/-! ## Animation loop (`main.js`, lines 13-20 and 904-988) -/

/-- A point `{ x, y, z }`. -/
structure Vec3 where
  x : ℚ
  y : ℚ
  z : ℚ
deriving DecidableEq, Repr

/-- The array `CAMERA_POSITIONS`. -/
def CAMERA_POSITIONS : List Vec3 :=
  [ { x := 0, y := 0, z := 5 },
    { x := 0, y := 1 / 2, z := -10 },
    { x := 0, y := 0, z := -35 },
    { x := 0, y := 0, z := -55 },
    { x := 0, y := 0, z := -75 } ]

/-- The constant `LERP_SPEED = 0.04`. -/
def LERP_SPEED : ℚ := 4 / 100

/-- The lookup `CAMERA_POSITIONS[index]`; `none` is `undefined`. -/
def cameraAt (index : Int) : Option Vec3 :=
  if 0 ≤ index then CAMERA_POSITIONS.get? index.toNat else none

/-- An entry of `planets`: the angle `pivot.rotation.y` and the constant `speed`. -/
structure Planet where
  rotationY : ℚ
  speed : ℚ
deriving DecidableEq, Repr

/-- An entry of `skillOrbs`: its position and the constants of its `userData`. -/
structure Orb where
  position : Vec3
  basePos : Vec3
  speed : ℚ
  offset : ℚ
deriving DecidableEq, Repr

/-- An entry of `projectMeshes`: `position.y`, `rotation.y` and `userData.basePos.y`. -/
structure Card where
  positionY : ℚ
  rotationY : ℚ
  basePosY : ℚ
deriving DecidableEq, Repr

/-- The values of the 3D scene that `animate` writes. -/
structure Scene where
  /-- `camera.position` -/
  cameraPosition : Vec3
  /-- the point last handed to `camera.lookAt` -/
  cameraLookAt : Vec3
  /-- `heroGroup.rotation.y` -/
  heroRotationY : ℚ
  planets : List Planet
  /-- the scalar last handed to `sunMesh.scale.setScalar` -/
  sunMeshScale : ℚ
  sunGlowScale : ℚ
  sunOuterGlowScale : ℚ
  /-- `sunLight.intensity` -/
  sunLightIntensity : ℚ
  /-- `asteroidBelt.rotation.y` -/
  asteroidRotationY : ℚ
  skillOrbs : List Orb
  dodecMeshRotationX : ℚ
  dodecMeshRotationY : ℚ
  dodecWireRotationX : ℚ
  dodecWireRotationY : ℚ
  projectMeshes : List Card
  /-- `material.opacity` of the children of `contactGroup` -/
  dotOpacities : List ℚ
  /-- the `y` entries `particlePos[3 * i + 1]` of the background particles -/
  particleY : List ℚ
  /-- `particles.geometry.attributes.position.needsUpdate` -/
  particlesNeedUpdate : Bool
  /-- `mainLight.position.x` -/
  mainLightX : ℚ
  /-- `mainLight.position.y` -/
  mainLightY : ℚ
  /-- `secondaryLight.position.x` -/
  secondaryLightX : ℚ
  /-- how many times `renderer.render` has been called -/
  framesRendered : Nat
deriving DecidableEq, Repr

/-- The method `forEach((x, i) => ...)` as a map that also receives the index, counted from
`i`. -/
def mapIdxFrom {α : Type} (f : Nat → α → α) : Nat → List α → List α
  | _, [] => []
  | i, x :: xs => f i x :: mapIdxFrom f (i + 1) xs

/-- The function `animate()`, one frame.  `sin` and `cos` stand for `Math.sin` and
`Math.cos`; `delta` and `elapsed` are what `clock.getDelta()` and `clock.getElapsedTime()`
return; `count` is the constant `particleCount`.  The result is `none` when
`CAMERA_POSITIONS[currentSection]` is undefined, where the script throws.  The call
`requestAnimationFrame(animate)` that schedules the next frame is left out. -/
def animate (sin cos : ℚ → ℚ) (delta elapsed : ℚ) (count : Nat) (s : State) (sc : Scene) :
    Option Scene :=
  match cameraAt s.currentSection with
  | none => none
  | some target =>
    if s.reducedMotion = true then
      let p := sc.cameraPosition
      let x := p.x + (target.x - p.x) * LERP_SPEED * 2
      let y := p.y + (target.y - p.y) * LERP_SPEED * 2
      let z := p.z + (target.z - p.z) * LERP_SPEED * 2
      some { sc with
        cameraPosition := { x := x, y := y, z := z },
        framesRendered := sc.framesRendered + 1 }
    else
      let parallaxX := s.mouseX * (3 / 10)
      let parallaxY := s.mouseY * (15 / 100)
      let p := sc.cameraPosition
      let x := p.x + (target.x + parallaxX - p.x) * LERP_SPEED
      let y := p.y + (target.y + parallaxY - p.y) * LERP_SPEED
      let z := p.z + (target.z - p.z) * LERP_SPEED
      let sunScale := 1 + sin (elapsed * (15 / 10)) * (4 / 100)
      some { sc with
        cameraPosition := { x := x, y := y, z := z },
        cameraLookAt := { x := x * (5 / 10), y := y * (3 / 10), z := z - 10 },
        heroRotationY := elapsed * (3 / 100),
        planets := sc.planets.map fun planet =>
          { planet with rotationY := planet.rotationY + planet.speed * delta * (3 / 10) },
        sunMeshScale := sunScale,
        sunGlowScale := sunScale * (105 / 100),
        sunOuterGlowScale := 1 + sin (elapsed * (8 / 10)) * (6 / 100),
        sunLightIntensity := 3 + sin (elapsed * (12 / 10)) * (5 / 10),
        asteroidRotationY := elapsed * (2 / 100),
        skillOrbs := sc.skillOrbs.map fun orb =>
          { orb with position :=
              { x := orb.basePos.x + sin (elapsed * orb.speed + orb.offset) * (3 / 10),
                y := orb.basePos.y +
                  cos (elapsed * orb.speed * (7 / 10) + orb.offset) * (2 / 10),
                z := orb.basePos.z +
                  sin (elapsed * orb.speed * (5 / 10) + orb.offset * 2) * (2 / 10) } },
        dodecMeshRotationX := elapsed * (2 / 10),
        dodecMeshRotationY := elapsed * (15 / 100),
        dodecWireRotationX := -elapsed * (1 / 10),
        dodecWireRotationY := -elapsed * (12 / 100),
        projectMeshes := mapIdxFrom (fun i card =>
          { card with
            positionY := card.basePosY + sin (elapsed * (5 / 10) + i * (8 / 10)) * (8 / 100),
            rotationY := sin (elapsed * (3 / 10) + i) * (3 / 100) }) 0 sc.projectMeshes,
        dotOpacities := mapIdxFrom (fun i _ =>
          15 / 100 + sin (elapsed * (5 / 10) + i * (1 / 10)) * (1 / 10)) 0 sc.dotOpacities,
        particleY := mapIdxFrom (fun i y =>
          if i < count then y + sin (elapsed * (2 / 10) + i) * (1 / 1000) else y) 0
            sc.particleY,
        particlesNeedUpdate := true,
        mainLightX := sin (elapsed * (3 / 10)) * 5,
        mainLightY := cos (elapsed * (2 / 10)) * 3 + 3,
        secondaryLightX := cos (elapsed * (4 / 10)) * 4 - 3,
        framesRendered := sc.framesRendered + 1 }

/-- A scene to try `animate` on: the camera at the Home pose, one planet, one orb, one
card. -/
def sampleScene : Scene :=
  { cameraPosition := { x := 0, y := 0, z := 5 },
    cameraLookAt := { x := 0, y := 0, z := -5 },
    heroRotationY := 0,
    planets := [{ rotationY := 1, speed := 45 / 100 }],
    sunMeshScale := 1, sunGlowScale := 1, sunOuterGlowScale := 1, sunLightIntensity := 3,
    asteroidRotationY := 0,
    skillOrbs := [{ position := { x := 3, y := 0, z := 0 },
                    basePos := { x := 3, y := 0, z := 0 }, speed := 1 / 2, offset := 0 }],
    dodecMeshRotationX := 0, dodecMeshRotationY := 0,
    dodecWireRotationX := 0, dodecWireRotationY := 0,
    projectMeshes := [{ positionY := 1 / 2, rotationY := 0, basePosY := 1 / 2 }],
    dotOpacities := [1 / 5], particleY := [1, 2], particlesNeedUpdate := false,
    mainLightX := 5, mainLightY := 5, secondaryLightX := -5, framesRendered := 0 }

/-- The integer nearest to `q`, the even one of the two when `q` lies halfway. -/
def roundHalfEven (q : ℚ) : ℤ :=
  if q - ⌊q⌋ < 1 / 2 then ⌊q⌋
  else if 1 / 2 < q - ⌊q⌋ then ⌊q⌋ + 1
  else if ⌊q⌋ % 2 = 0 then ⌊q⌋ else ⌊q⌋ + 1

/-- The exponent `e` for which the binary64 numbers around `x` are the multiples of `2^e`:
53 significant bits, and never below the subnormal spacing `2^-1074`. -/
def ulpExponent (x : ℚ) : ℤ :=
  max (Int.log 2 |x| - 52) (-1074)

/-- The binary64 number nearest to `x`, ties to even: what every arithmetic operation and
every decimal literal of the script yields.  The exponent range is bounded below
(subnormal numbers) but not above: overflow to `Infinity` is not modelled. -/
def roundDouble (x : ℚ) : ℚ :=
  (roundHalfEven (x / 2 ^ ulpExponent x) : ℚ) * 2 ^ ulpExponent x

/-- The camera lines of `animate` (913-915 and 922-927): the new `camera.position` from the
old one `p`, with every arithmetic result and every decimal literal passed through the
rounding `fl`.  With `fl = roundDouble` this is the arithmetic the script runs; with
`fl = id` it is the exact arithmetic of `animate` above. -/
def animateCamera (fl : ℚ → ℚ) (s : State) (target p : Vec3) : Vec3 :=
  if s.reducedMotion = true then
    { x := fl (p.x + fl (fl (fl (target.x - p.x) * fl LERP_SPEED) * 2)),
      y := fl (p.y + fl (fl (fl (target.y - p.y) * fl LERP_SPEED) * 2)),
      z := fl (p.z + fl (fl (fl (target.z - p.z) * fl LERP_SPEED) * 2)) }
  else
    let parallaxX := fl (s.mouseX * fl (3 / 10))
    let parallaxY := fl (s.mouseY * fl (15 / 100))
    { x := fl (p.x + fl (fl (fl (target.x + parallaxX) - p.x) * fl LERP_SPEED)),
      y := fl (p.y + fl (fl (fl (target.y + parallaxY) - p.y) * fl LERP_SPEED)),
      z := fl (p.z + fl (fl (target.z - p.z) * fl LERP_SPEED)) }

/-- The camera position after `n` frames, the page state `s` held fixed. -/
def animateCameraN (fl : ℚ → ℚ) (s : State) (target : Vec3) : Nat → Vec3 → Vec3
  | 0, p => p
  | n + 1, p => animateCamera fl s target (animateCameraN fl s target n p)

/-- The point the camera eases toward in normal mode, as the script computes it: the pose
`t` of the current section, offset by the pointer parallax `mouseX * 0.3` and
`mouseY * 0.15`. -/
def cameraGoal (fl : ℚ → ℚ) (s : State) (t : Vec3) : Vec3 :=
  { x := fl (t.x + fl (s.mouseX * fl (3 / 10))),
    y := fl (t.y + fl (s.mouseY * fl (15 / 100))),
    z := t.z }

/-- The value `x` lies between the values `a` and `b`, whichever of them is the larger. -/
def Between (a b x : ℚ) : Prop :=
  min a b ≤ x ∧ x ≤ max a b

/-- A page in normal mode with the pointer moved to the upper right quarter:
`mouseX = mouseY = 1/2`. -/
def pointerState : State :=
  onMouseMove 960 180 1280 720 homeState

/-- The section a touch end asks for when the swipe from `startY` to `endY` passes the
threshold: the next one for an upward swipe, the previous one otherwise. -/
def swipeTarget (startY endY : ℚ) (current : Int) : Int :=
  current + (if startY - endY > 0 then 1 else -1)

/-! ## Vocabulary of the claims -/

/-- The keys `onKeyDown` acts on while the modal is closed. -/
def navKeys : List String :=
  ["ArrowDown", "PageDown", "ArrowUp", "PageUp", "Home", "End", "1", "2", "3", "4", "5"]

/-- The section `onKeyDown` requests for a key of `navKeys`, as the claim lists them. -/
def keyTarget (key : String) (current : Int) : Int :=
  if key = "ArrowDown" ∨ key = "PageDown" then current + 1
  else if key = "ArrowUp" ∨ key = "PageUp" then current - 1
  else if key = "Home" then 0
  else if key = "End" then SECTION_COUNT - 1
  else if key = "1" then 0
  else if key = "2" then 1
  else if key = "3" then 2
  else if key = "4" then 3
  else 4

/-- The ray caster's report of a hit on the card group with `userData.projectIndex = k`. -/
def cardHit (k : Int) : Intersection :=
  { parent := some { projectIndex := some k } }

/-- A concrete run from `homeState`: key `4` moves to Projects, both of the request's
callbacks run, and a click strikes the card of project 1, which opens the modal. -/
def modalTrace : List Event :=
  [.keyDown "4", .elapse 1200, .timer, .timer, .click [cardHit 1]]

/-- Whether a pending timer is a settle callback (`isTransitioning = false`). -/
def isSettle (t : Timer) : Bool :=
  match t.cb with
  | .settle => true
  | _ => false

/-- Whether a pending timer is an overlay-reveal callback. -/
def isReveal (t : Timer) : Bool :=
  match t.cb with
  | .reveal _ => true
  | _ => false

/-- Whether a pending timer is a debounce-cooldown callback (`scrollCooldown = false`). -/
def isCooldown (t : Timer) : Bool :=
  match t.cb with
  | .cooldownEnd => true
  | _ => false

/-- The navigation invariant: the section index is in range and equals the target; an idle
page has no settle or reveal callback pending; a page in transition has exactly one settle
callback pending, scheduled 1200 ms after some acceptance time `a`, and either the reveal
of the current section is still pending (scheduled at `a + 400`) with no overlay active, or
none is pending and the current section's overlay is the only active one. -/
def NavInv (s : State) : Prop :=
  0 ≤ s.currentSection ∧ s.currentSection < SECTION_COUNT ∧
  s.targetSection = s.currentSection ∧
  (s.isTransitioning = false →
    s.timers.filter isSettle = [] ∧ s.timers.filter isReveal = []) ∧
  (s.isTransitioning = true → ∃ a : Nat,
    s.timers.filter isSettle = [{ due := a + 1200, cb := .settle }] ∧
    ((s.timers.filter isReveal = [{ due := a + 400, cb := .reveal s.currentSection }] ∧
        s.activeOverlays = []) ∨
     (s.timers.filter isReveal = [] ∧
        ∃ id, overlayId s.currentSection = some id ∧ s.activeOverlays = [id])))

/-- The debounce invariant: a cooldown callback is pending exactly while `scrollCooldown`
is true, and never more than one. -/
def CoolInv (s : State) : Prop :=
  (s.scrollCooldown = false → s.timers.filter isCooldown = []) ∧
  (s.scrollCooldown = true → ∃ d : Nat,
    s.timers.filter isCooldown = [{ due := d, cb := .cooldownEnd }])

/-- The state `s'` agrees with `s` on the clock, the pending timers, the navigation
variables, the debounce flag and the active overlays. -/
def SameNav (s s' : State) : Prop :=
  s'.now = s.now ∧ s'.timers = s.timers ∧ s'.currentSection = s.currentSection ∧
  s'.targetSection = s.targetSection ∧ s'.isTransitioning = s.isTransitioning ∧
  s'.scrollCooldown = s.scrollCooldown ∧ s'.activeOverlays = s.activeOverlays

/-- Run the event loop's timer turn `n` times. -/
def drain : Nat → State → State
  | 0, s => s
  | n + 1, s => drain n (runTimer s)

/-- Let `d` milliseconds pass and then run every pending timer that has become due. -/
def advance (d : Nat) (s : State) : State :=
  drain s.timers.length { s with now := s.now + d }

/-- Whether event `e`, arriving in state `s`, runs a debounce-cooldown callback. -/
def firesCooldown (e : Event) (s : State) : Bool :=
  match e with
  | .timer =>
    match earliest s.timers with
    | some t => decide (t.due ≤ s.now) && isCooldown t
    | none => false
  | _ => false

/-- No debounce-cooldown callback runs along the events `es` started in `s`. -/
def cooldownQuiet : List Event → State → Bool
  | [], _ => true
  | e :: es, s => !firesCooldown e s && cooldownQuiet es (step e s)

/-- Wheel events and touch ends: the gestures that are debounced. -/
def isGesture : Event → Bool
  | .wheel _ => true
  | .touchEnd _ => true
  | _ => false

/-- Events that only let time pass or run a pending timer. -/
def isPassive : Event → Bool
  | .elapse _ => true
  | .timer => true
  | _ => false

/-- The number of gestures along `es`, started in `s`, that change `currentSection`. -/
def gestureChanges : List Event → State → Nat
  | [], _ => 0
  | e :: es, s =>
    (if isGesture e = true ∧ (step e s).currentSection ≠ s.currentSection then 1 else 0) +
      gestureChanges es (step e s)

/-! ## Basic facts about the handlers -/

theorem initial_homeState : Initial homeState := by
  simp [Initial, homeState]

theorem reachable_init {s : State} (h : Initial s) : Reachable s :=
  ⟨s, [], h, rfl⟩

theorem run_append (es fs : List Event) (s : State) :
    run (es ++ fs) s = run fs (run es s) := by
  simp [run, List.foldl_append]

theorem reachable_step {s : State} (h : Reachable s) (e : Event) : Reachable (step e s) := by
  obtain ⟨s0, es, h0, rfl⟩ := h
  exact ⟨s0, es ++ [e], h0, by simp [run_append, run]⟩

theorem reachable_run {s : State} (h : Reachable s) (es : List Event) :
    Reachable (run es s) := by
  induction es generalizing s with
  | nil => exact h
  | cons e es ih => exact ih (reachable_step h e)

theorem goToSection_rejected {i : Int} {s : State}
    (h : i < 0 ∨ i ≥ SECTION_COUNT ∨ i = s.currentSection ∨ s.isTransitioning = true) :
    goToSection i s = s := by
  unfold goToSection
  rw [if_pos h]

theorem goToSection_accepted {i : Int} {s : State}
    (h0 : 0 ≤ i) (h5 : i < SECTION_COUNT) (hc : i ≠ s.currentSection)
    (ht : s.isTransitioning = false) :
    goToSection i s =
      { s with
        isTransitioning := true, targetSection := i, currentSection := i,
        activeNavLinks := [i], activeIndicators := [i], activeOverlays := [],
        scrollIndicatorOpacity := if i = 0 then "1" else "0",
        timers := s.timers ++ [{ due := s.now + 400, cb := .reveal i },
                               { due := s.now + 1200, cb := .settle }] } := by
  unfold goToSection
  rw [if_neg (by simp [ht, hc]; omega)]
  simp [setTimeout]

theorem goToSection_scrollCooldown (i : Int) (s : State) :
    (goToSection i s).scrollCooldown = s.scrollCooldown := by
  unfold goToSection
  split <;> rfl

theorem goToSection_modalOpen (i : Int) (s : State) :
    (goToSection i s).modalOpen = s.modalOpen := by
  unfold goToSection
  split <;> rfl

theorem goToSection_set_scrollCooldown (i : Int) (b : Bool) (s : State) :
    goToSection i { s with scrollCooldown := b } =
      { goToSection i s with scrollCooldown := b } := by
  unfold goToSection
  split <;> rfl

theorem onKeyDown_navKey {key : String} (hk : key ∈ navKeys) (s : State)
    (hm : s.modalOpen = false) :
    onKeyDown key s = goToSection (keyTarget key s.currentSection) s := by
  simp only [navKeys, List.mem_cons, List.mem_singleton, List.not_mem_nil, or_false] at hk
  rcases hk with h | h | h | h | h | h | h | h | h | h | h <;> subst h <;>
    simp [onKeyDown, keyTarget, hm, parseInt]

theorem onKeyDown_other_key {key : String} (hk : key ∉ navKeys) (s : State)
    (hm : s.modalOpen = false) : onKeyDown key s = s := by
  simp only [navKeys, List.mem_cons, List.mem_singleton, List.not_mem_nil, or_false,
    not_or] at hk
  obtain ⟨h1, h2, h3, h4, h5, h6, h7, h8, h9, h10, h11⟩ := hk
  simp [onKeyDown, hm, h1, h2, h3, h4, h5, h6, h7, h8, h9, h10, h11]

theorem projectAt_natCast (k : Nat) : projectAt (k : Int) = projects.get? k := by
  simp [projectAt]

theorem openModal_of_project {index : Int} {p : Project} (h : projectAt index = some p)
    (s : State) :
    openModal index s =
      { s with
        modalOpen := true, modalTitle := p.title, modalDescription := p.description,
        modalStack := stackMarkup p.stack, githubHref := p.githubUrl,
        liveHref := if truthyUrl p.liveUrl then p.liveUrl.getD "" else s.liveHref,
        liveDisplay := if truthyUrl p.liveUrl then "inline-flex" else "none",
        modalVisible := true, modalAriaHidden := "false" } := by
  unfold openModal
  rw [h]
  by_cases hl : truthyUrl p.liveUrl = true <;> simp [hl]

theorem openModal_of_undefined {index : Int} (h : projectAt index = none) (s : State) :
    openModal index s = s := by
  unfold openModal
  rw [h]

theorem modal_blocks_gestures (s : State) (hm : s.modalOpen = true) :
    (∀ deltaY, onWheel deltaY s = s) ∧ (∀ y, onTouchEnd y s = s) ∧
    (∀ key, key ≠ "Escape" → onKeyDown key s = s) ∧
    onKeyDown "Escape" s = closeModal s ∧ (closeModal s).modalOpen = false := by
  refine ⟨fun d => by simp [onWheel, hm], fun y => by simp [onTouchEnd, hm],
    fun key hk => by simp [onKeyDown, hm, hk], by simp [onKeyDown, hm], rfl⟩

/-! ## Timers and the event loop -/

theorem earliest_eq_none {ts : List Timer} (h : earliest ts = none) : ts = [] := by
  cases ts with
  | nil => rfl
  | cons t ts =>
    unfold earliest at h
    split at h
    · cases h
    · split at h <;> cases h

theorem earliest_mem {ts : List Timer} {t : Timer} (h : earliest ts = some t) : t ∈ ts := by
  induction ts generalizing t with
  | nil => simp [earliest] at h
  | cons a ts ih =>
    unfold earliest at h
    split at h
    · cases h; simp
    · rename_i u hu
      split at h
      · cases h; simp
      · cases h; exact List.mem_cons_of_mem _ (ih hu)

theorem earliest_le {ts : List Timer} {t : Timer} (h : earliest ts = some t) :
    ∀ u ∈ ts, t.due ≤ u.due := by
  induction ts generalizing t with
  | nil => simp [earliest] at h
  | cons a ts ih =>
    intro u hu
    unfold earliest at h
    split at h
    · rename_i hnone
      cases h
      have := earliest_eq_none hnone
      subst this
      simp at hu
      subst hu
      exact le_refl _
    · rename_i v hv
      have hv' := ih hv
      rcases List.mem_cons.1 hu with rfl | hmem
      · split at h
        · cases h; exact le_refl _
        · cases h; omega
      · split at h
        · cases h
          have := hv' u hmem
          omega
        · cases h; exact hv' u hmem

@[simp] theorem fire_timers (cb : Callback) (s : State) : (fire cb s).timers = s.timers := by
  cases cb <;> simp only [fire]
  split <;> rfl

@[simp] theorem fire_now (cb : Callback) (s : State) : (fire cb s).now = s.now := by
  cases cb <;> simp only [fire]
  split <;> rfl

@[simp] theorem fire_currentSection (cb : Callback) (s : State) :
    (fire cb s).currentSection = s.currentSection := by
  cases cb <;> simp only [fire]
  split <;> rfl

@[simp] theorem fire_targetSection (cb : Callback) (s : State) :
    (fire cb s).targetSection = s.targetSection := by
  cases cb <;> simp only [fire]
  split <;> rfl

theorem runTimer_cases (s : State) :
    runTimer s = s ∨
    ∃ t, earliest s.timers = some t ∧ t.due ≤ s.now ∧
      runTimer s = fire t.cb { s with timers := s.timers.erase t } := by
  cases ht : earliest s.timers with
  | none => left; simp [runTimer, ht]
  | some t =>
    by_cases hd : t.due ≤ s.now
    · right
      exact ⟨t, rfl, hd, by simp [runTimer, ht, hd]⟩
    · left
      simp [runTimer, ht, hd]

theorem filter_erase_of_false (p : Timer → Bool) (t : Timer) (ts : List Timer)
    (h : p t = false) : (ts.erase t).filter p = ts.filter p := by
  rw [← List.erase_filter]
  apply List.erase_of_not_mem
  intro hm
  have := (List.mem_filter.1 hm).2
  rw [h] at this
  cases this

theorem filter_erase_singleton (p : Timer → Bool) (t u : Timer) (ts : List Timer)
    (hmem : t ∈ ts) (hp : p t = true) (h : ts.filter p = [u]) :
    t = u ∧ (ts.erase t).filter p = [] := by
  have ht : t ∈ ts.filter p := List.mem_filter.2 ⟨hmem, hp⟩
  rw [h] at ht
  have htu : t = u := by simpa using ht
  subst htu
  refine ⟨rfl, ?_⟩
  rw [← List.erase_filter, h]
  simp

/-! ## Invariants of the reachable states -/

theorem navInv_congr {s s' : State}
    (hc : s'.currentSection = s.currentSection) (ht : s'.targetSection = s.targetSection)
    (hi : s'.isTransitioning = s.isTransitioning) (ho : s'.activeOverlays = s.activeOverlays)
    (hs : s'.timers.filter isSettle = s.timers.filter isSettle)
    (hr : s'.timers.filter isReveal = s.timers.filter isReveal) (h : NavInv s) :
    NavInv s' := by
  unfold NavInv
  rw [hc, ht, hi, ho, hs, hr]
  exact h

theorem overlayId_some {i : Int} (h0 : 0 ≤ i) (h5 : i < SECTION_COUNT) :
    ∃ id, overlayId i = some id := by
  have h5' : i < 5 := h5
  have : i = 0 ∨ i = 1 ∨ i = 2 ∨ i = 3 ∨ i = 4 := by omega
  rcases this with h | h | h | h | h <;> subst h <;> simp [overlayId, overlayIds]

theorem navInv_goToSection (i : Int) {s : State} (h : NavInv s) : NavInv (goToSection i s) := by
  by_cases hr : i < 0 ∨ i ≥ SECTION_COUNT ∨ i = s.currentSection ∨ s.isTransitioning = true
  · rw [goToSection_rejected hr]
    exact h
  · simp only [not_or, not_lt, ge_iff_le, not_le, Bool.not_eq_true] at hr
    obtain ⟨h0, h5, hc, ht⟩ := hr
    rw [goToSection_accepted h0 h5 hc ht]
    obtain ⟨_, _, _, hidle, _⟩ := h
    obtain ⟨hs, hrv⟩ := hidle ht
    refine ⟨h0, h5, rfl, ?_, ?_⟩
    · intro hf
      cases hf
    · intro _
      refine ⟨s.now, ?_, Or.inl ⟨?_, rfl⟩⟩
      · simp [List.filter_append, hs, isSettle, List.filter_cons]
      · simp [List.filter_append, hrv, isReveal, List.filter_cons]

theorem onWheel_cases (deltaY : ℚ) (s : State) :
    onWheel deltaY s = s ∨
    (s.scrollCooldown = false ∧ s.modalOpen = false ∧
      0 ≤ s.currentSection + mathSign deltaY ∧
      s.currentSection + mathSign deltaY < SECTION_COUNT ∧
      onWheel deltaY s = setTimeout .cooldownEnd 1000
        { goToSection (s.currentSection + mathSign deltaY) s with scrollCooldown := true }) := by
  by_cases hg : s.scrollCooldown = true ∨ s.modalOpen = true
  · left
    unfold onWheel
    rw [if_pos hg]
  · by_cases hn : 0 ≤ s.currentSection + mathSign deltaY ∧
        s.currentSection + mathSign deltaY < SECTION_COUNT
    · right
      simp only [not_or, Bool.not_eq_true] at hg
      refine ⟨hg.1, hg.2, hn.1, hn.2, ?_⟩
      unfold onWheel
      rw [if_neg (by simp [hg.1, hg.2])]
      simp only
      rw [if_pos hn]
    · left
      unfold onWheel
      rw [if_neg hg]
      simp only
      rw [if_neg hn]

theorem onTouchEnd_cases (y : ℚ) (s : State) :
    onTouchEnd y s = s ∨
    (s.scrollCooldown = false ∧ s.modalOpen = false ∧ |s.touchStartY - y| > 50 ∧
      ∃ next : Int, 0 ≤ next ∧ next < SECTION_COUNT ∧
        next = s.currentSection + (if s.touchStartY - y > 0 then 1 else -1) ∧
        onTouchEnd y s = setTimeout .cooldownEnd 1000
          { goToSection next s with scrollCooldown := true }) := by
  by_cases hm : s.modalOpen = true
  · left
    unfold onTouchEnd
    rw [if_pos hm]
  · by_cases hd : |s.touchStartY - y| > 50
    · by_cases hn : 0 ≤ s.currentSection + (if s.touchStartY - y > 0 then 1 else -1) ∧
          s.currentSection + (if s.touchStartY - y > 0 then 1 else -1) < SECTION_COUNT ∧
          s.scrollCooldown = false
      · right
        refine ⟨hn.2.2, by simpa using hm, hd, _, hn.1, hn.2.1, rfl, ?_⟩
        unfold onTouchEnd
        rw [if_neg hm]
        simp only
        rw [if_pos hd, if_pos hn]
      · left
        unfold onTouchEnd
        rw [if_neg hm]
        simp only
        rw [if_pos hd, if_neg hn]
    · left
      unfold onTouchEnd
      rw [if_neg hm]
      simp only
      rw [if_neg hd]

theorem navInv_setCooldown {s : State} (h : NavInv s) :
    NavInv (setTimeout .cooldownEnd 1000 { s with scrollCooldown := true }) := by
  refine navInv_congr (s := s) rfl rfl rfl rfl ?_ ?_ h
  · simp [setTimeout, List.filter_append, isSettle, List.filter_cons]
  · simp [setTimeout, List.filter_append, isReveal, List.filter_cons]

theorem navInv_onWheel (deltaY : ℚ) {s : State} (h : NavInv s) : NavInv (onWheel deltaY s) := by
  rcases onWheel_cases deltaY s with he | ⟨_, _, _, _, he⟩
  · rw [he]; exact h
  · rw [he]; exact navInv_setCooldown (navInv_goToSection _ h)

theorem navInv_onTouchEnd (y : ℚ) {s : State} (h : NavInv s) : NavInv (onTouchEnd y s) := by
  rcases onTouchEnd_cases y s with he | ⟨_, _, _, next, _, _, _, he⟩
  · rw [he]; exact h
  · rw [he]; exact navInv_setCooldown (navInv_goToSection _ h)

theorem navInv_openModal (k : Int) {s : State} (h : NavInv s) : NavInv (openModal k s) := by
  cases hp : projectAt k with
  | none => rw [openModal_of_undefined hp]; exact h
  | some p =>
    rw [openModal_of_project hp]
    exact navInv_congr (s := s) rfl rfl rfl rfl rfl rfl h

theorem navInv_onKeyDown (key : String) {s : State} (h : NavInv s) :
    NavInv (onKeyDown key s) := by
  unfold onKeyDown
  repeat' split
  all_goals first
    | exact h
    | exact navInv_goToSection _ h

theorem navInv_onClick (l : List Intersection) {s : State} (h : NavInv s) :
    NavInv (onClick l s) := by
  unfold onClick
  repeat' split
  all_goals first
    | exact h
    | exact navInv_openModal _ h

theorem navInv_runTimer {s : State} (h : NavInv s) : NavInv (runTimer s) := by
  rcases runTimer_cases s with he | ⟨t, het, _, he⟩
  · rw [he]; exact h
  · rw [he]
    have hmem := earliest_mem het
    have hle := earliest_le het
    obtain ⟨h0, h5, htc, hidle, htrans⟩ := h
    obtain ⟨due, cb⟩ := t
    cases cb with
    | hideLoader =>
      refine navInv_congr (s := s) rfl rfl rfl rfl ?_ ?_ ⟨h0, h5, htc, hidle, htrans⟩
      · exact filter_erase_of_false isSettle _ _ rfl
      · exact filter_erase_of_false isReveal _ _ rfl
    | cooldownEnd =>
      refine navInv_congr (s := s) rfl rfl rfl rfl ?_ ?_ ⟨h0, h5, htc, hidle, htrans⟩
      · exact filter_erase_of_false isSettle _ _ rfl
      · exact filter_erase_of_false isReveal _ _ rfl
    | settle =>
      have hin : (⟨due, .settle⟩ : Timer) ∈ s.timers.filter isSettle :=
        List.mem_filter.2 ⟨hmem, rfl⟩
      cases hT : s.isTransitioning with
      | false =>
        rw [(hidle hT).1] at hin
        cases hin
      | true =>
        obtain ⟨a, hs, hrv⟩ := htrans hT
        obtain ⟨hta, hnil⟩ := filter_erase_singleton isSettle _ _ _ hmem rfl hs
        rcases hrv with ⟨hr1, _⟩ | ⟨hr0, _⟩
        · exfalso
          have hrm : (⟨a + 400, .reveal s.currentSection⟩ : Timer) ∈ s.timers := by
            have : (⟨a + 400, .reveal s.currentSection⟩ : Timer) ∈ s.timers.filter isReveal := by
              rw [hr1]; simp
            exact (List.mem_filter.1 this).1
          have h1 := hle _ hrm
          have h2 : due = a + 1200 := by injection hta
          simp only at h1
          omega
        · refine ⟨h0, h5, htc, ?_, ?_⟩
          · intro _
            refine ⟨hnil, ?_⟩
            show (s.timers.erase _).filter isReveal = []
            rw [filter_erase_of_false isReveal ⟨due, .settle⟩ _ rfl]
            exact hr0
          · intro hf
            simp [fire] at hf
    | reveal idx =>
      have hin : (⟨due, .reveal idx⟩ : Timer) ∈ s.timers.filter isReveal :=
        List.mem_filter.2 ⟨hmem, rfl⟩
      cases hT : s.isTransitioning with
      | false =>
        rw [(hidle hT).2] at hin
        cases hin
      | true =>
        obtain ⟨a, hs, hrv⟩ := htrans hT
        rcases hrv with ⟨hr1, hov⟩ | ⟨hr0, _⟩
        · obtain ⟨hta, hnil⟩ := filter_erase_singleton isReveal _ _ _ hmem rfl hr1
          have hidx : idx = s.currentSection := by injection hta with _ h2; injection h2
          subst hidx
          obtain ⟨id, hid⟩ := overlayId_some h0 h5
          have hsf : (s.timers.erase ⟨due, .reveal s.currentSection⟩).filter isSettle =
              [⟨a + 1200, .settle⟩] := by
            rw [filter_erase_of_false isSettle ⟨due, .reveal s.currentSection⟩ _ rfl]
            exact hs
          refine ⟨by simpa using h0, by simpa using h5, by simpa using htc, ?_, ?_⟩
          · intro hf
            simp [fire, hid, hT] at hf
          · intro _
            refine ⟨a, by simpa using hsf, Or.inr ⟨by simpa using hnil, id, ?_, ?_⟩⟩
            · simpa using hid
            · simp [fire, hid, hov, classAdd]
        · rw [hr0] at hin
          cases hin

theorem navInv_step (e : Event) {s : State} (h : NavInv s) : NavInv (step e s) := by
  cases e with
  | navClick i => exact navInv_goToSection i h
  | wheel d => exact navInv_onWheel d h
  | touchStart y => exact navInv_congr (s := s) rfl rfl rfl rfl rfl rfl h
  | touchEnd y => exact navInv_onTouchEnd y h
  | keyDown key => exact navInv_onKeyDown key h
  | mouseMove x y w hh => exact navInv_congr (s := s) rfl rfl rfl rfl rfl rfl h
  | click l => exact navInv_onClick l h
  | cardClick i => exact navInv_openModal _ h
  | closeClick => exact navInv_congr (s := s) rfl rfl rfl rfl rfl rfl h
  | motionToggle => exact navInv_congr (s := s) rfl rfl rfl rfl rfl rfl h
  | elapse d => exact navInv_congr (s := s) rfl rfl rfl rfl rfl rfl h
  | timer => exact navInv_runTimer h

theorem navInv_initial {s : State} (h : Initial s) : NavInv s := by
  obtain ⟨hc, ht, hi, _, _, _, _, _, _, _, htm⟩ := h
  refine ⟨by rw [hc], by rw [hc]; decide, by rw [hc, ht], ?_, ?_⟩
  · intro _
    rw [htm]
    exact ⟨rfl, rfl⟩
  · intro hT
    rw [hi] at hT
    cases hT

theorem navInv_run (es : List Event) {s : State} (h : NavInv s) : NavInv (run es s) := by
  induction es generalizing s with
  | nil => exact h
  | cons e es ih => exact ih (navInv_step e h)

theorem navInv_of_reachable {s : State} (h : Reachable s) : NavInv s := by
  obtain ⟨s0, es, h0, rfl⟩ := h
  exact navInv_run es (navInv_initial h0)

/-! ## The shape of a step -/

theorem sameNav_refl (s : State) : SameNav s s :=
  ⟨rfl, rfl, rfl, rfl, rfl, rfl, rfl⟩

theorem sameNav_openModal (k : Int) (s : State) : SameNav s (openModal k s) := by
  cases hp : projectAt k with
  | none => rw [openModal_of_undefined hp]; exact sameNav_refl s
  | some p => rw [openModal_of_project hp]; exact ⟨rfl, rfl, rfl, rfl, rfl, rfl, rfl⟩

theorem onKeyDown_cases (key : String) (s : State) :
    SameNav s (onKeyDown key s) ∨ ∃ i, onKeyDown key s = goToSection i s := by
  unfold onKeyDown
  repeat' split
  all_goals first
    | exact Or.inl (sameNav_refl s)
    | exact Or.inl ⟨rfl, rfl, rfl, rfl, rfl, rfl, rfl⟩
    | exact Or.inr ⟨_, rfl⟩

theorem onClick_cases (l : List Intersection) (s : State) : SameNav s (onClick l s) := by
  unfold onClick
  repeat' split
  all_goals first
    | exact sameNav_refl s
    | exact sameNav_openModal _ s

/-- Every step is of one of five kinds: it leaves clock, timers and navigation alone; it is
a bare `goToSection`; it is a debounced gesture that calls `goToSection` and starts the
cooldown; it lets time pass; or it is a turn of the timer phase. -/
theorem step_cases (e : Event) (s : State) :
    SameNav s (step e s) ∨ (∃ i, step e s = goToSection i s) ∨
    (isGesture e = true ∧ s.scrollCooldown = false ∧ s.modalOpen = false ∧
      ∃ next, 0 ≤ next ∧ next < SECTION_COUNT ∧ step e s =
        setTimeout .cooldownEnd 1000 { goToSection next s with scrollCooldown := true }) ∨
    (∃ d, e = .elapse d) ∨ e = .timer := by
  cases e with
  | navClick i => exact Or.inr (Or.inl ⟨i, rfl⟩)
  | wheel d =>
    rcases onWheel_cases d s with he | ⟨h1, h2, h3, h4, he⟩
    · left; show SameNav s (onWheel d s); rw [he]; exact sameNav_refl s
    · exact Or.inr (Or.inr (Or.inl ⟨rfl, h1, h2, _, h3, h4, he⟩))
  | touchStart y => exact Or.inl ⟨rfl, rfl, rfl, rfl, rfl, rfl, rfl⟩
  | touchEnd y =>
    rcases onTouchEnd_cases y s with he | ⟨h1, h2, _, next, h3, h4, _, he⟩
    · left; show SameNav s (onTouchEnd y s); rw [he]; exact sameNav_refl s
    · exact Or.inr (Or.inr (Or.inl ⟨rfl, h1, h2, next, h3, h4, he⟩))
  | keyDown key =>
    rcases onKeyDown_cases key s with he | he
    · exact Or.inl he
    · exact Or.inr (Or.inl he)
  | mouseMove x y w hh => exact Or.inl ⟨rfl, rfl, rfl, rfl, rfl, rfl, rfl⟩
  | click l => exact Or.inl (onClick_cases l s)
  | cardClick i => exact Or.inl (sameNav_openModal _ s)
  | closeClick => exact Or.inl ⟨rfl, rfl, rfl, rfl, rfl, rfl, rfl⟩
  | motionToggle => exact Or.inl ⟨rfl, rfl, rfl, rfl, rfl, rfl, rfl⟩
  | elapse d => exact Or.inr (Or.inr (Or.inr (Or.inl ⟨d, rfl⟩)))
  | timer => exact Or.inr (Or.inr (Or.inr (Or.inr rfl)))

theorem goToSection_now (i : Int) (s : State) : (goToSection i s).now = s.now := by
  unfold goToSection
  split <;> rfl

theorem goToSection_timers (i : Int) (s : State) :
    ∃ l, (goToSection i s).timers = s.timers ++ l ∧
      ∀ t ∈ l, isCooldown t = false ∧ s.now < t.due := by
  by_cases hr : i < 0 ∨ i ≥ SECTION_COUNT ∨ i = s.currentSection ∨ s.isTransitioning = true
  · rw [goToSection_rejected hr]
    exact ⟨[], by simp, by simp⟩
  · simp only [not_or, not_lt, ge_iff_le, not_le, Bool.not_eq_true] at hr
    obtain ⟨h0, h5, hc, ht⟩ := hr
    rw [goToSection_accepted h0 h5 hc ht]
    refine ⟨_, rfl, ?_⟩
    intro t ht
    simp only [List.mem_cons, List.mem_singleton, List.not_mem_nil, or_false] at ht
    rcases ht with rfl | rfl <;> simp [isCooldown]

theorem runTimer_now (s : State) : (runTimer s).now = s.now := by
  rcases runTimer_cases s with he | ⟨t, _, _, he⟩ <;> rw [he]
  simp

theorem runTimer_currentSection (s : State) :
    (runTimer s).currentSection = s.currentSection := by
  rcases runTimer_cases s with he | ⟨t, _, _, he⟩ <;> rw [he]
  simp

theorem runTimer_sublist (s : State) : (runTimer s).timers.Sublist s.timers := by
  rcases runTimer_cases s with he | ⟨t, _, _, he⟩
  · rw [he]
  · rw [he]
    simp only [fire_timers]
    exact List.erase_sublist _ _

theorem step_now_le (e : Event) (s : State) : s.now ≤ (step e s).now := by
  rcases step_cases e s with h | ⟨i, h⟩ | ⟨_, _, _, next, _, _, h⟩ | ⟨d, rfl⟩ | rfl
  · exact le_of_eq h.1.symm
  · rw [h, goToSection_now]
  · rw [h]
    show s.now ≤ (goToSection next s).now
    rw [goToSection_now]
  · show s.now ≤ s.now + d
    omega
  · show s.now ≤ (runTimer s).now
    rw [runTimer_now]

theorem run_now_le (es : List Event) (s : State) : s.now ≤ (run es s).now := by
  induction es generalizing s with
  | nil => exact le_refl _
  | cons e es ih => exact le_trans (step_now_le e s) (ih (step e s))

/-- A pending timer that is not yet due survives any step. -/
theorem step_keeps_timer (e : Event) {s : State} {t : Timer} (hm : t ∈ s.timers)
    (hd : s.now < t.due) : t ∈ (step e s).timers := by
  rcases step_cases e s with h | ⟨i, h⟩ | ⟨_, _, _, next, _, _, h⟩ | ⟨d, rfl⟩ | rfl
  · rw [h.2.1]; exact hm
  · obtain ⟨l, hl, _⟩ := goToSection_timers i s
    rw [h, hl]
    exact List.mem_append_left _ hm
  · obtain ⟨l, hl, _⟩ := goToSection_timers next s
    rw [h]
    show t ∈ (goToSection next s).timers ++ _
    rw [hl]
    exact List.mem_append_left _ (List.mem_append_left _ hm)
  · exact hm
  · show t ∈ (runTimer s).timers
    rcases runTimer_cases s with he | ⟨u, _, hu, he⟩ <;> rw [he]
    · exact hm
    · simp only [fire_timers]
      have hne : t ≠ u := by
        intro h
        subst h
        omega
      exact (List.mem_erase_of_ne hne).2 hm

/-- A pending timer is still pending as long as the clock has not reached its due time. -/
theorem pending_of_not_due (es : List Event) {s : State} {t : Timer} (hm : t ∈ s.timers)
    (hd : (run es s).now < t.due) : t ∈ (run es s).timers := by
  induction es generalizing s with
  | nil => exact hm
  | cons e es ih =>
    have h1 : (step e s).now ≤ (run es (step e s)).now := run_now_le es (step e s)
    have h2 : s.now ≤ (step e s).now := step_now_le e s
    have hd' : (run es (step e s)).now < t.due := hd
    exact ih (step_keeps_timer e hm (by omega)) hd

/-! ## Draining the due timers -/

theorem drain_eq_run (n : Nat) (s : State) :
    drain n s = run (List.replicate n .timer) s := by
  induction n generalizing s with
  | zero => rfl
  | succ n ih =>
    show drain n (runTimer s) = _
    rw [ih]
    rfl

theorem advance_eq_run (d : Nat) (s : State) :
    advance d s = run (.elapse d :: List.replicate s.timers.length .timer) s := by
  unfold advance
  rw [drain_eq_run]
  rfl

theorem reachable_advance {s : State} (h : Reachable s) (d : Nat) :
    Reachable (advance d s) := by
  rw [advance_eq_run]
  exact reachable_run h _

theorem drain_now (n : Nat) (s : State) : (drain n s).now = s.now := by
  induction n generalizing s with
  | zero => rfl
  | succ n ih =>
    show (drain n (runTimer s)).now = _
    rw [ih, runTimer_now]

theorem drain_currentSection (n : Nat) (s : State) :
    (drain n s).currentSection = s.currentSection := by
  induction n generalizing s with
  | zero => rfl
  | succ n ih =>
    show (drain n (runTimer s)).currentSection = _
    rw [ih, runTimer_currentSection]

theorem drain_sublist (n : Nat) (s : State) : (drain n s).timers.Sublist s.timers := by
  induction n generalizing s with
  | zero => exact List.Sublist.refl _
  | succ n ih => exact (ih (runTimer s)).trans (runTimer_sublist s)

theorem runTimer_progress (s : State) :
    (∀ t ∈ s.timers, s.now < t.due) ∨
    ∃ t, t ∈ s.timers ∧ runTimer s = fire t.cb { s with timers := s.timers.erase t } := by
  cases ht : earliest s.timers with
  | none =>
    left
    rw [earliest_eq_none ht]
    simp
  | some t =>
    by_cases hd : t.due ≤ s.now
    · right
      exact ⟨t, earliest_mem ht, by simp [runTimer, ht, hd]⟩
    · left
      intro u hu
      have := earliest_le ht u hu
      omega

theorem runTimer_of_none_due {s : State} (h : ∀ t ∈ s.timers, s.now < t.due) :
    runTimer s = s := by
  rcases runTimer_cases s with he | ⟨t, ht, hd, _⟩
  · exact he
  · have := h t (earliest_mem ht)
    omega

theorem drain_of_none_due (n : Nat) {s : State} (h : ∀ t ∈ s.timers, s.now < t.due) :
    drain n s = s := by
  induction n with
  | zero => rfl
  | succ n ih =>
    show drain n (runTimer s) = s
    rw [runTimer_of_none_due h, ih]

/-- After as many timer turns as there are pending timers, none that is due remains. -/
theorem drain_settled (n : Nat) (s : State) (hn : s.timers.length ≤ n) :
    ∀ t ∈ (drain n s).timers, (drain n s).now < t.due := by
  induction n generalizing s with
  | zero =>
    have : s.timers = [] := List.length_eq_zero.1 (by omega)
    intro t ht
    rw [show drain 0 s = s from rfl, this] at ht
    cases ht
  | succ n ih =>
    rcases runTimer_progress s with hnone | ⟨t, htm, he⟩
    · rw [drain_of_none_due _ hnone]
      exact hnone
    · show ∀ u ∈ (drain n (runTimer s)).timers, (drain n (runTimer s)).now < u.due
      apply ih
      rw [he]
      simp only [fire_timers]
      rw [List.length_erase_of_mem htm]
      omega

theorem advance_now (d : Nat) (s : State) : (advance d s).now = s.now + d := by
  unfold advance
  rw [drain_now]

theorem advance_currentSection (d : Nat) (s : State) :
    (advance d s).currentSection = s.currentSection := by
  unfold advance
  rw [drain_currentSection]

theorem advance_sublist (d : Nat) (s : State) : (advance d s).timers.Sublist s.timers := by
  unfold advance
  exact drain_sublist _ _

theorem advance_settled (d : Nat) (s : State) :
    ∀ t ∈ (advance d s).timers, (advance d s).now < t.due := by
  unfold advance
  exact drain_settled _ _ (le_refl _)

/-! ## The debounce cooldown -/

theorem goToSection_filter_isCooldown (i : Int) (s : State) :
    (goToSection i s).timers.filter isCooldown = s.timers.filter isCooldown := by
  obtain ⟨l, hl, hno⟩ := goToSection_timers i s
  rw [hl, List.filter_append]
  have : l.filter isCooldown = [] := by
    rw [List.filter_eq_nil_iff]
    intro t ht
    rw [(hno t ht).1]
    simp
  rw [this, List.append_nil]

theorem coolInv_congr {s s' : State} (hc : s'.scrollCooldown = s.scrollCooldown)
    (hf : s'.timers.filter isCooldown = s.timers.filter isCooldown) (h : CoolInv s) :
    CoolInv s' := by
  unfold CoolInv
  rw [hc, hf]
  exact h

theorem coolInv_runTimer {s : State} (h : CoolInv s) : CoolInv (runTimer s) := by
  rcases runTimer_cases s with he | ⟨t, het, _, he⟩
  · rw [he]; exact h
  · rw [he]
    have hmem := earliest_mem het
    obtain ⟨due, cb⟩ := t
    cases cb with
    | hideLoader =>
      exact coolInv_congr (s := s) rfl (filter_erase_of_false isCooldown _ _ rfl) h
    | settle =>
      exact coolInv_congr (s := s) rfl (filter_erase_of_false isCooldown _ _ rfl) h
    | reveal idx =>
      refine coolInv_congr (s := s) ?_ ?_ h
      · simp only [fire]
        split <;> rfl
      · rw [fire_timers]
        exact filter_erase_of_false isCooldown _ _ rfl
    | cooldownEnd =>
      have hin : (⟨due, .cooldownEnd⟩ : Timer) ∈ s.timers.filter isCooldown :=
        List.mem_filter.2 ⟨hmem, rfl⟩
      cases hC : s.scrollCooldown with
      | false =>
        rw [h.1 hC] at hin
        cases hin
      | true =>
        obtain ⟨d, hd⟩ := h.2 hC
        obtain ⟨_, hnil⟩ := filter_erase_singleton isCooldown _ _ _ hmem rfl hd
        refine ⟨fun _ => hnil, fun hf => ?_⟩
        simp [fire] at hf

theorem coolInv_step (e : Event) {s : State} (h : CoolInv s) : CoolInv (step e s) := by
  rcases step_cases e s with hs | ⟨i, hs⟩ | ⟨_, hc, _, next, _, _, hs⟩ | ⟨d, rfl⟩ | rfl
  · refine coolInv_congr (s := s) hs.2.2.2.2.2.1 ?_ h
    rw [hs.2.1]
  · rw [hs]
    exact coolInv_congr (s := s) (goToSection_scrollCooldown i s)
      (goToSection_filter_isCooldown i s) h
  · rw [hs]
    unfold CoolInv
    constructor
    · intro hf
      cases hf
    · intro _
      refine ⟨(goToSection next s).now + 1000, ?_⟩
      show ((goToSection next s).timers ++ _).filter isCooldown = _
      rw [List.filter_append, goToSection_filter_isCooldown, h.1 hc]
      rfl
  · exact coolInv_congr (s := s) rfl rfl h
  · exact coolInv_runTimer h

theorem coolInv_of_reachable {s : State} (h : Reachable s) : CoolInv s := by
  obtain ⟨s0, es, h0, rfl⟩ := h
  have hinit : CoolInv s0 := by
    obtain ⟨_, _, _, hc, _, _, _, _, _, _, htm⟩ := h0
    refine ⟨fun _ => by rw [htm]; rfl, fun hT => ?_⟩
    rw [hc] at hT
    cases hT
  clear h0
  induction es generalizing s0 with
  | nil => exact hinit
  | cons e es ih => exact ih (step e s0) (coolInv_step e hinit)

/-- A gesture arriving while `scrollCooldown` is true changes nothing. -/
theorem gesture_blocked {e : Event} {s : State} (hg : isGesture e = true)
    (hc : s.scrollCooldown = true) : step e s = s := by
  cases e with
  | wheel d =>
    rcases onWheel_cases d s with he | ⟨hf, _⟩
    · exact he
    · rw [hc] at hf; cases hf
  | touchEnd y =>
    rcases onTouchEnd_cases y s with he | ⟨hf, _⟩
    · exact he
    · rw [hc] at hf; cases hf
  | _ => cases hg

/-- Only a cooldown callback resets `scrollCooldown`, and while it is true no further
cooldown callback is scheduled. -/
theorem cooldown_stays {e : Event} {s : State} (hc : s.scrollCooldown = true)
    (hq : firesCooldown e s = false) :
    (step e s).scrollCooldown = true ∧
    (step e s).timers.filter isCooldown = s.timers.filter isCooldown := by
  rcases step_cases e s with hs | ⟨i, hs⟩ | ⟨_, hf, _⟩ | ⟨d, rfl⟩ | rfl
  · refine ⟨by rw [hs.2.2.2.2.2.1, hc], by rw [hs.2.1]⟩
  · rw [hs]
    exact ⟨by rw [goToSection_scrollCooldown, hc], goToSection_filter_isCooldown i s⟩
  · rw [hc] at hf; cases hf
  · exact ⟨hc, rfl⟩
  · show (runTimer s).scrollCooldown = true ∧
      (runTimer s).timers.filter isCooldown = s.timers.filter isCooldown
    rcases runTimer_cases s with he | ⟨t, het, hd, he⟩
    · rw [he]; exact ⟨hc, rfl⟩
    · rw [he]
      have hnc : isCooldown t = false := by
        simpa [firesCooldown, het, hd] using hq
      obtain ⟨due, cb⟩ := t
      cases cb with
      | cooldownEnd => cases hnc
      | hideLoader =>
        exact ⟨hc, filter_erase_of_false isCooldown ⟨due, .hideLoader⟩ _ rfl⟩
      | settle => exact ⟨hc, filter_erase_of_false isCooldown ⟨due, .settle⟩ _ rfl⟩
      | reveal idx =>
        refine ⟨?_, ?_⟩
        · simp only [fire]
          split <;> exact hc
        · simp only [fire_timers]
          exact filter_erase_of_false isCooldown ⟨due, .reveal idx⟩ _ rfl

theorem quiet_blocks (es : List Event) {s : State} (hc : s.scrollCooldown = true)
    (hq : cooldownQuiet es s = true) :
    gestureChanges es s = 0 ∧ (run es s).scrollCooldown = true := by
  induction es generalizing s with
  | nil => exact ⟨rfl, hc⟩
  | cons e es ih =>
    simp only [cooldownQuiet, Bool.and_eq_true, Bool.not_eq_true'] at hq
    obtain ⟨hq1, hq2⟩ := hq
    obtain ⟨h1, h2⟩ := ih (cooldown_stays hc hq1).1 hq2
    refine ⟨?_, h2⟩
    show (if isGesture e = true ∧ (step e s).currentSection ≠ s.currentSection then 1 else 0) +
      gestureChanges es (step e s) = 0
    rw [h1, if_neg]
    rintro ⟨hg, hne⟩
    rw [gesture_blocked hg hc] at hne
    exact hne rfl

theorem gesture_change_starts_cooldown {e : Event} {s : State} (hg : isGesture e = true)
    (hne : (step e s).currentSection ≠ s.currentSection) :
    (step e s).scrollCooldown = true := by
  cases e with
  | wheel d =>
    rcases onWheel_cases d s with he | ⟨_, _, _, _, he⟩
    · exact absurd (by show (onWheel d s).currentSection = _; rw [he]) hne
    · show (onWheel d s).scrollCooldown = true
      rw [he]; rfl
  | touchEnd y =>
    rcases onTouchEnd_cases y s with he | ⟨_, _, _, next, _, _, _, he⟩
    · exact absurd (by show (onTouchEnd y s).currentSection = _; rw [he]) hne
    · show (onTouchEnd y s).scrollCooldown = true
      rw [he]; rfl
  | _ => cases hg

theorem gestureChanges_le_one (es : List Event) (s : State)
    (hq : cooldownQuiet es s = true) : gestureChanges es s ≤ 1 := by
  induction es generalizing s with
  | nil => exact Nat.zero_le _
  | cons e es ih =>
    simp only [cooldownQuiet, Bool.and_eq_true, Bool.not_eq_true'] at hq
    obtain ⟨_, hq2⟩ := hq
    show (if isGesture e = true ∧ (step e s).currentSection ≠ s.currentSection then 1 else 0) +
      gestureChanges es (step e s) ≤ 1
    by_cases hch : isGesture e = true ∧ (step e s).currentSection ≠ s.currentSection
    · rw [if_pos hch, (quiet_blocks es (gesture_change_starts_cooldown hch.1 hch.2) hq2).1]
    · rw [if_neg hch]
      have := ih (step e s) hq2
      omega

/-- While the clock has not reached the due time of the one pending cooldown callback, no
cooldown callback runs. -/
theorem quiet_of_not_due (es : List Event) {s : State} {d : Nat}
    (hc : s.scrollCooldown = true)
    (hf : s.timers.filter isCooldown = [{ due := d, cb := .cooldownEnd }])
    (hd : (run es s).now < d) : cooldownQuiet es s = true := by
  induction es generalizing s with
  | nil => rfl
  | cons e es ih =>
    have hnow : s.now ≤ (run (e :: es) s).now := run_now_le _ s
    have hq : firesCooldown e s = false := by
      cases e with
      | timer =>
        cases het : earliest s.timers with
        | none => simp [firesCooldown, het]
        | some t =>
          by_cases hdue : t.due ≤ s.now
          · cases hct : isCooldown t with
            | false => simp [firesCooldown, het, hct]
            | true =>
              exfalso
              have hin : t ∈ s.timers.filter isCooldown :=
                List.mem_filter.2 ⟨earliest_mem het, hct⟩
              rw [hf] at hin
              have : t = ⟨d, .cooldownEnd⟩ := by simpa using hin
              subst this
              simp only at hdue
              omega
          · simp [firesCooldown, het, hdue]
      | _ => rfl
    obtain ⟨h1, h2⟩ := cooldown_stays hc hq
    simp only [cooldownQuiet, hq, Bool.not_false, Bool.true_and]
    exact ih h1 (by rw [h2]; exact hf) hd

theorem run_passive_currentSection (es : List Event) (s : State)
    (hp : ∀ e ∈ es, isPassive e = true) : (run es s).currentSection = s.currentSection := by
  induction es generalizing s with
  | nil => rfl
  | cons e es ih =>
    have he : isPassive e = true := hp e (List.mem_cons_self _ _)
    have hrest : ∀ x ∈ es, isPassive x = true := fun x hx => hp x (List.mem_cons_of_mem _ hx)
    show (run es (step e s)).currentSection = _
    rw [ih (step e s) hrest]
    cases e with
    | elapse d => rfl
    | timer => exact runTimer_currentSection s
    | _ => cases he

/-! ## An accepted request -/

theorem accepted_filters {i : Int} {s : State} (hinv : NavInv s)
    (h0 : 0 ≤ i) (h5 : i < SECTION_COUNT) (hc : i ≠ s.currentSection)
    (ht : s.isTransitioning = false) :
    (goToSection i s).timers.filter isSettle = [{ due := s.now + 1200, cb := .settle }] ∧
    (goToSection i s).timers.filter isReveal = [{ due := s.now + 400, cb := .reveal i }] := by
  obtain ⟨hs, hrv⟩ := hinv.2.2.2.1 ht
  rw [goToSection_accepted h0 h5 hc ht]
  constructor
  · simp [List.filter_append, hs, isSettle, List.filter_cons]
  · simp [List.filter_append, hrv, isReveal, List.filter_cons]

theorem transitioning_of_settle_pending {s : State} {t : Timer} (hinv : NavInv s)
    (hm : t ∈ s.timers) (hs : isSettle t = true) : s.isTransitioning = true := by
  cases hT : s.isTransitioning with
  | true => rfl
  | false =>
    have hin : t ∈ s.timers.filter isSettle := List.mem_filter.2 ⟨hm, hs⟩
    rw [(hinv.2.2.2.1 hT).1] at hin
    cases hin

theorem onWheel_forward {deltaY : ℚ} {s : State} (hd : 0 < deltaY)
    (hc : s.scrollCooldown = false) (hm : s.modalOpen = false)
    (h0 : 0 ≤ s.currentSection) (h5 : s.currentSection + 1 < SECTION_COUNT) :
    onWheel deltaY s = setTimeout .cooldownEnd 1000
      { goToSection (s.currentSection + 1) s with scrollCooldown := true } := by
  have hsign : mathSign deltaY = 1 := by simp [mathSign, hd]
  unfold onWheel
  rw [if_neg (by simp [hc, hm])]
  simp only [hsign]
  rw [if_pos ⟨by omega, h5⟩]

/-! ## Modal, touch and wheel, unfolded -/

theorem projectAt_mem {k : Int} {p : Project} (h : projectAt k = some p) : p ∈ projects := by
  unfold projectAt at h
  split at h
  · exact List.get?_mem h
  · cases h

theorem projectAt_out_of_range {k : Int} (h : k < 0 ∨ (projects.length : Int) ≤ k) :
    projectAt k = none := by
  unfold projectAt
  split
  · rw [List.get?_eq_none]
    omega
  · rfl

theorem projectAt_in_range {k : Int} (h0 : 0 ≤ k) (h1 : k < (projects.length : Int)) :
    ∃ p, projectAt k = some p := by
  unfold projectAt
  rw [if_pos h0]
  have hlt : k.toNat < projects.length := by omega
  exact ⟨projects.get ⟨k.toNat, hlt⟩, List.get?_eq_get hlt⟩

theorem truthyUrl_iff (o : Option String) :
    truthyUrl o = true ↔ ¬ (o = none ∨ o = some "") := by
  cases o with
  | none => simp [truthyUrl]
  | some u => simp [truthyUrl]

theorem openModalIn_of_project {table : List Project} {index : Int} {q : Project}
    (h0 : 0 ≤ index) (h : table.get? index.toNat = some q) (s : State) :
    openModalIn table index s =
      { s with
        modalOpen := true, modalTitle := q.title, modalDescription := q.description,
        modalStack := stackMarkup q.stack, githubHref := q.githubUrl,
        liveHref := if truthyUrl q.liveUrl then q.liveUrl.getD "" else s.liveHref,
        liveDisplay := if truthyUrl q.liveUrl then "inline-flex" else "none",
        modalVisible := true, modalAriaHidden := "false" } := by
  unfold openModalIn
  rw [if_pos h0, h]
  by_cases hl : truthyUrl q.liveUrl = true <;> simp [hl]

theorem ite_truthyUrl (o : Option String) (a b : String) :
    (if truthyUrl o = true then a else b) = (if o = none ∨ o = some "" then b else a) := by
  by_cases ht : truthyUrl o = true
  · rw [if_pos ht, if_neg ((truthyUrl_iff _).1 ht)]
  · rw [if_neg ht, if_pos (by
      by_contra hne
      exact ht ((truthyUrl_iff _).2 hne))]

theorem projects_liveUrl :
    ∀ p ∈ projects, truthyUrl p.liveUrl = true ∧ p.liveUrl ≠ none := by
  decide

theorem onTouchEnd_unfold (y : ℚ) (s : State) :
    onTouchEnd y s =
      if s.modalOpen = true then s
      else if |s.touchStartY - y| > 50 then
        if 0 ≤ swipeTarget s.touchStartY y s.currentSection ∧
            swipeTarget s.touchStartY y s.currentSection < SECTION_COUNT ∧
            s.scrollCooldown = false then
          setTimeout .cooldownEnd 1000
            { goToSection (swipeTarget s.touchStartY y s.currentSection) s with
              scrollCooldown := true }
        else s
      else s :=
  rfl

theorem onTouchEnd_onTouchStart (a e : ℚ) (s : State) :
    onTouchEnd e (onTouchStart a s) =
      if s.modalOpen = true then onTouchStart a s
      else if |a - e| > 50 then
        if 0 ≤ swipeTarget a e s.currentSection ∧
            swipeTarget a e s.currentSection < SECTION_COUNT ∧
            s.scrollCooldown = false then
          setTimeout .cooldownEnd 1000
            { goToSection (swipeTarget a e s.currentSection) (onTouchStart a s) with
              scrollCooldown := true }
        else onTouchStart a s
      else onTouchStart a s :=
  rfl

theorem onWheel_unfold (deltaY : ℚ) (s : State) :
    onWheel deltaY s =
      if s.scrollCooldown = true ∨ s.modalOpen = true then s
      else if 0 ≤ s.currentSection + mathSign deltaY ∧
          s.currentSection + mathSign deltaY < SECTION_COUNT then
        setTimeout .cooldownEnd 1000
          { goToSection (s.currentSection + mathSign deltaY) s with scrollCooldown := true }
      else s :=
  rfl

theorem goToSection_locked_currentSection (i : Int) {s : State}
    (h : s.isTransitioning = true) : (goToSection i s).currentSection = s.currentSection := by
  rw [goToSection_rejected (Or.inr (Or.inr (Or.inr h)))]

theorem cameraAt_some {i : Int} (h0 : 0 ≤ i) (h5 : i < SECTION_COUNT) :
    ∃ p, cameraAt i = some p := by
  have h5' : i < 5 := h5
  have : i = 0 ∨ i = 1 ∨ i = 2 ∨ i = 3 ∨ i = 4 := by omega
  rcases this with h | h | h | h | h <;> subst h <;> simp [cameraAt, CAMERA_POSITIONS]

/-- Once 1200 ms have passed after an accepted request and the due timers have run, the
lock is released. -/
theorem advance_releases {s : State} {i : Int} (hr : Reachable s)
    (h0 : 0 ≤ i) (h5 : i < SECTION_COUNT) (hc : i ≠ s.currentSection)
    (ht : s.isTransitioning = false) :
    (advance 1200 (goToSection i s)).isTransitioning = false := by
  have hinv := navInv_of_reachable hr
  obtain ⟨hfs, _⟩ := accepted_filters hinv h0 h5 hc ht
  have hreach : Reachable (goToSection i s) := reachable_step hr (.navClick i)
  have hinv12 := navInv_of_reachable (reachable_advance hreach 1200)
  have hset12 := advance_settled 1200 (goToSection i s)
  have hsub12 := (advance_sublist 1200 (goToSection i s)).subset
  have hnow12 : (advance 1200 (goToSection i s)).now = s.now + 1200 := by
    rw [advance_now, goToSection_now]
  cases hT : (advance 1200 (goToSection i s)).isTransitioning with
  | false => rfl
  | true =>
    exfalso
    obtain ⟨a, hsa, _⟩ := hinv12.2.2.2.2 hT
    have hx : (⟨a + 1200, .settle⟩ : Timer) ∈
        (advance 1200 (goToSection i s)).timers.filter isSettle := by rw [hsa]; simp
    have hx1 := (List.mem_filter.1 hx).1
    have hx2 : (⟨a + 1200, .settle⟩ : Timer) ∈ (goToSection i s).timers.filter isSettle :=
      List.mem_filter.2 ⟨hsub12 hx1, rfl⟩
    rw [hfs] at hx2
    have hx3 := hset12 _ hx1
    rw [hnow12] at hx3
    have hx4 : a + 1200 = s.now + 1200 := by
      have := List.mem_singleton.1 hx2
      injection this
    simp only at hx3
    omega

/-! ## Quality tiers and the reduced-motion frame -/

theorem getDeviceQuality_none (ua : String) : getDeviceQuality none ua = .low := by
  simp [getDeviceQuality]

theorem getDeviceQuality_some (c : Int) (ua : String) :
    getDeviceQuality (some c) ua =
      if isMobile ua = true ∨ c ≤ 2 then .low else if c ≤ 4 then .medium else .high := by
  unfold getDeviceQuality
  by_cases hc : c = 0
  · subst hc
    simp
  · simp only [hc, if_false]

theorem dpr_low (r : ℚ) : dpr .low r = 1 := by
  simp [dpr]

theorem dpr_medium (r : ℚ) : dpr .medium r = min r 2 := by
  unfold dpr
  rw [if_neg (by decide)]

theorem dpr_high (r : ℚ) : dpr .high r = min r 2 := by
  unfold dpr
  rw [if_neg (by decide)]

theorem reveal_pending {s : State} (hinv : NavInv s) {t : Timer} (hm : t ∈ s.timers)
    (hr : isReveal t = true) :
    s.isTransitioning = true ∧ s.activeOverlays = [] ∧
    ∃ a, s.timers.filter isReveal = [t] ∧ t = ⟨a + 400, .reveal s.currentSection⟩ := by
  have hin : t ∈ s.timers.filter isReveal := List.mem_filter.2 ⟨hm, hr⟩
  cases hT : s.isTransitioning with
  | false =>
    rw [(hinv.2.2.2.1 hT).2] at hin
    cases hin
  | true =>
    obtain ⟨a, _, halt⟩ := hinv.2.2.2.2 hT
    rcases halt with ⟨hr1, hov⟩ | ⟨hr0, _⟩
    · rw [hr1] at hin
      have ht := List.mem_singleton.1 hin
      exact ⟨rfl, hov, a, by rw [hr1, ht], ht⟩
    · rw [hr0] at hin
      cases hin

/-! ## Rounding to the nearest binary64 number -/

theorem roundHalfEven_cases (q : ℚ) :
    roundHalfEven q = ⌊q⌋ ∧ q - ⌊q⌋ ≤ 1 / 2 ∨ roundHalfEven q = ⌊q⌋ + 1 ∧ 1 / 2 ≤ q - ⌊q⌋ := by
  unfold roundHalfEven
  by_cases h1 : q - ⌊q⌋ < 1 / 2
  · left
    rw [if_pos h1]
    exact ⟨rfl, h1.le⟩
  · rw [if_neg h1]
    by_cases h2 : 1 / 2 < q - ⌊q⌋
    · right
      rw [if_pos h2]
      exact ⟨rfl, h2.le⟩
    · rw [if_neg h2]
      have heq : q - ⌊q⌋ = 1 / 2 := le_antisymm (not_lt.1 h2) (not_lt.1 h1)
      by_cases h3 : ⌊q⌋ % 2 = 0
      · left
        rw [if_pos h3]
        exact ⟨rfl, heq.le⟩
      · right
        rw [if_neg h3]
        exact ⟨rfl, heq.ge⟩

/-- No integer is nearer to `q` than `roundHalfEven q`. -/
theorem roundHalfEven_nearest (q : ℚ) (n : ℤ) :
    |(roundHalfEven q : ℚ) - q| ≤ |(n : ℚ) - q| := by
  have hfl : (⌊q⌋ : ℚ) ≤ q := Int.floor_le q
  have hlt : q < (⌊q⌋ : ℚ) + 1 := Int.lt_floor_add_one q
  have hn : n ≤ ⌊q⌋ ∨ ⌊q⌋ + 1 ≤ n := by omega
  have hnq : (n : ℚ) ≤ ⌊q⌋ ∨ ((⌊q⌋ : ℚ) + 1 ≤ n) := by
    rcases hn with h | h
    · left; exact_mod_cast h
    · right; exact_mod_cast h
  rcases roundHalfEven_cases q with ⟨hr, hh⟩ | ⟨hr, hh⟩
  · rw [hr, abs_sub_comm, abs_of_nonneg (by linarith)]
    rcases hnq with h | h
    · rw [abs_sub_comm, abs_of_nonneg (by linarith)]
      linarith
    · rw [abs_of_nonneg (by linarith)]
      linarith
  · rw [hr]
    push_cast
    rw [abs_of_nonneg (by linarith)]
    rcases hnq with h | h
    · rw [abs_sub_comm, abs_of_nonneg (by linarith)]
      linarith
    · rw [abs_of_nonneg (by linarith)]
      linarith

theorem roundHalfEven_abs_sub_le (q : ℚ) : |(roundHalfEven q : ℚ) - q| ≤ 1 / 2 := by
  have hfl : (⌊q⌋ : ℚ) ≤ q := Int.floor_le q
  have hlt : q < (⌊q⌋ : ℚ) + 1 := Int.lt_floor_add_one q
  rcases roundHalfEven_cases q with ⟨hr, hh⟩ | ⟨hr, hh⟩
  · rw [hr, abs_sub_comm, abs_of_nonneg (by linarith)]
    exact hh
  · rw [hr]
    push_cast
    rw [abs_of_nonneg (by linarith)]
    linarith

theorem roundHalfEven_eq_of_near {q : ℚ} {m : ℤ} (h : |q - (m : ℚ)| < 1 / 2) :
    roundHalfEven q = m := by
  have h1 := roundHalfEven_abs_sub_le q
  have h2 : |(roundHalfEven q : ℚ) - m| < 1 := by
    calc |(roundHalfEven q : ℚ) - m|
        = |((roundHalfEven q : ℚ) - q) + (q - m)| := by ring_nf
      _ ≤ |(roundHalfEven q : ℚ) - q| + |q - (m : ℚ)| := abs_add _ _
      _ < 1 := by linarith
  have h3 : |roundHalfEven q - m| < 1 := by
    have : ((|roundHalfEven q - m| : ℤ) : ℚ) < 1 := by
      push_cast
      exact h2
    exact_mod_cast this
  have h4 : roundHalfEven q - m = 0 := by
    rcases abs_lt.1 h3 with ⟨ha, hb⟩
    omega
  omega

theorem roundHalfEven_intCast (n : ℤ) : roundHalfEven (n : ℚ) = n :=
  roundHalfEven_eq_of_near (by simp)


theorem two_zpow_pos (e : ℤ) : (0 : ℚ) < 2 ^ e :=
  zpow_pos (by norm_num) e

theorem ulpExponent_ge (x : ℚ) : -1074 ≤ ulpExponent x :=
  le_max_right _ _

theorem log_le_ulpExponent (x : ℚ) : Int.log 2 |x| - 52 ≤ ulpExponent x :=
  le_max_left _ _

theorem abs_lt_two_zpow (x : ℚ) : |x| < 2 ^ (ulpExponent x + 53) := by
  have h1 : |x| < ((2 : ℕ) : ℚ) ^ (Int.log 2 |x| + 1) :=
    Int.lt_zpow_succ_log_self (by norm_num) |x|
  have h2 : ((2 : ℕ) : ℚ) ^ (Int.log 2 |x| + 1) ≤ ((2 : ℕ) : ℚ) ^ (ulpExponent x + 53) := by
    apply zpow_le_zpow_right₀ (by norm_num)
    have := log_le_ulpExponent x
    omega
  have h3 := lt_of_lt_of_le h1 h2
  simpa using h3

theorem two_zpow_le_abs {x : ℚ} (hx : x ≠ 0) (he : -1074 < ulpExponent x) :
    (2 : ℚ) ^ (ulpExponent x + 52) ≤ |x| := by
  have hlog : ulpExponent x = Int.log 2 |x| - 52 := by
    unfold ulpExponent at he ⊢
    rcases le_total (Int.log 2 |x| - 52) (-1074) with h | h
    · rw [max_eq_right h] at he
      omega
    · rw [max_eq_left h]
  have h1 : ((2 : ℕ) : ℚ) ^ Int.log 2 |x| ≤ |x| :=
    Int.zpow_log_le_self (by norm_num) (abs_pos.2 hx)
  have h2 : ulpExponent x + 52 = Int.log 2 |x| := by omega
  rw [h2]
  simpa using h1

theorem ulpExponent_eq {x : ℚ} {e : ℤ} (he : -1074 ≤ e)
    (h1 : (2 : ℚ) ^ (e + 52) ≤ |x|) (h2 : |x| < 2 ^ (e + 53)) : ulpExponent x = e := by
  have hpos : 0 < |x| := lt_of_lt_of_le (two_zpow_pos _) h1
  have hl1 : e + 52 ≤ Int.log 2 |x| := by
    rw [← Int.zpow_le_iff_le_log (by norm_num) hpos]
    simpa using h1
  have hl2 : Int.log 2 |x| < e + 53 := by
    rw [← Int.lt_zpow_iff_log_lt (by norm_num) hpos]
    simpa using h2
  unfold ulpExponent
  rw [max_eq_left (by omega)]
  omega

/-- How to evaluate `roundDouble` at a number in the normal range: name the 53-bit integer
`m` and the exponent `e`, and check that `m * 2^e` is less than half a unit away. -/
theorem roundDouble_eq {x : ℚ} {m e : ℤ} (he : -1074 ≤ e)
    (h1 : (2 : ℚ) ^ (e + 52) ≤ |x|) (h2 : |x| < 2 ^ (e + 53))
    (hn : |x / 2 ^ e - (m : ℚ)| < 1 / 2) : roundDouble x = (m : ℚ) * 2 ^ e := by
  unfold roundDouble
  rw [ulpExponent_eq he h1 h2, roundHalfEven_eq_of_near hn]

theorem roundDouble_zero : roundDouble 0 = 0 := by
  unfold roundDouble
  simp [roundHalfEven_intCast 0, show roundHalfEven (0 : ℚ) = 0 from by
    have := roundHalfEven_intCast 0
    simpa using this]

/-- The result of rounding is within the nearest-integer distance of any multiple of the
unit `2 ^ ulpExponent x`. -/
theorem roundDouble_nearest_multiple (x : ℚ) (n : ℤ) :
    |roundDouble x - x| ≤ |(n : ℚ) * 2 ^ ulpExponent x - x| := by
  have hu := two_zpow_pos (ulpExponent x)
  have h := roundHalfEven_nearest (x / 2 ^ ulpExponent x) n
  have e1 : roundDouble x - x =
      ((roundHalfEven (x / 2 ^ ulpExponent x) : ℚ) - x / 2 ^ ulpExponent x) *
        2 ^ ulpExponent x := by
    unfold roundDouble
    field_simp
  have e2 : (n : ℚ) * 2 ^ ulpExponent x - x =
      ((n : ℚ) - x / 2 ^ ulpExponent x) * 2 ^ ulpExponent x := by
    field_simp
  rw [e1, e2, abs_mul, abs_mul, abs_of_pos hu]
  exact mul_le_mul_of_nonneg_right h hu.le

theorem two_zpow_intCast {j e : ℤ} (h : e ≤ j) :
    ∃ n : ℤ, (2 : ℚ) ^ j = (n : ℚ) * 2 ^ e := by
  refine ⟨2 ^ (j - e).toNat, ?_⟩
  have hj : j = (j - e).toNat + e := by omega
  have h2 : (2 : ℚ) ≠ 0 := by norm_num
  conv_lhs => rw [hj]
  rw [zpow_add₀ h2, zpow_natCast]
  push_cast
  rfl

theorem roundDouble_of_multiple {y : ℚ} (k : ℤ) (h : y = (k : ℚ) * 2 ^ ulpExponent y) :
    roundDouble y = y := by
  have hu := two_zpow_pos (ulpExponent y)
  have hq : y / 2 ^ ulpExponent y = (k : ℚ) := by
    rw [div_eq_iff hu.ne']
    exact h
  unfold roundDouble
  rw [hq, roundHalfEven_intCast]
  exact h.symm

theorem two_zpow_53 : (2 : ℚ) ^ (53 : ℤ) = 9007199254740992 := by
  norm_num

/-- A number `m * 2^j` with fewer than 53 bits in `m` and `j` not below the subnormal
exponent is a binary64 number: rounding returns it. -/
theorem roundDouble_of_rep {m j : ℤ} (hm : |m| < 2 ^ 53) (hj : -1074 ≤ j) :
    roundDouble ((m : ℚ) * 2 ^ j) = (m : ℚ) * 2 ^ j := by
  by_cases hm0 : m = 0
  · subst hm0
    simp [roundDouble_zero]
  have hy : (m : ℚ) * 2 ^ j ≠ 0 := by
    have := two_zpow_pos j
    have hmq : (m : ℚ) ≠ 0 := by exact_mod_cast hm0
    positivity
  have hpos : 0 < |(m : ℚ) * 2 ^ j| := abs_pos.2 hy
  have hmq : |(m : ℚ)| < 2 ^ (53 : ℤ) := by
    rw [two_zpow_53]
    have hm' : |m| < 9007199254740992 := by
      have : (2 : ℤ) ^ 53 = 9007199254740992 := by norm_num
      rw [this] at hm
      exact hm
    have : ((|m| : ℤ) : ℚ) < ((9007199254740992 : ℤ) : ℚ) := by exact_mod_cast hm'
    push_cast at this
    exact this
  have habs : |(m : ℚ) * 2 ^ j| < 2 ^ (j + 53) := by
    rw [abs_mul, abs_of_pos (two_zpow_pos j), add_comm j 53, zpow_add₀ (by norm_num)]
    exact mul_lt_mul_of_pos_right hmq (two_zpow_pos j)
  have hlog : Int.log 2 |(m : ℚ) * 2 ^ j| < j + 53 := by
    rw [← Int.lt_zpow_iff_log_lt (by norm_num) hpos]
    simpa using habs
  have he : ulpExponent ((m : ℚ) * 2 ^ j) ≤ j := by
    unfold ulpExponent
    apply max_le <;> omega
  obtain ⟨n, hn⟩ := two_zpow_intCast he
  apply roundDouble_of_multiple (m * n)
  push_cast
  rw [mul_assoc, ← hn]


/-- Every result of `roundDouble` is an integer of at most 53 bits (or `± 2^53`) times the
unit at its argument. -/
theorem roundDouble_rep (x : ℚ) :
    ∃ m : ℤ, |m| ≤ 2 ^ 53 ∧ roundDouble x = (m : ℚ) * 2 ^ ulpExponent x := by
  refine ⟨roundHalfEven (x / 2 ^ ulpExponent x), ?_, rfl⟩
  have hu := two_zpow_pos (ulpExponent x)
  have hq : |x / 2 ^ ulpExponent x| < 9007199254740992 := by
    rw [abs_div, abs_of_pos hu, div_lt_iff₀ hu]
    have h := abs_lt_two_zpow x
    rw [add_comm, zpow_add₀ (by norm_num), two_zpow_53] at h
    exact h
  have hr := roundHalfEven_abs_sub_le (x / 2 ^ ulpExponent x)
  have h1 : |(roundHalfEven (x / 2 ^ ulpExponent x) : ℚ)| < 9007199254740992 + 1 := by
    calc |(roundHalfEven (x / 2 ^ ulpExponent x) : ℚ)|
        = |((roundHalfEven (x / 2 ^ ulpExponent x) : ℚ) - x / 2 ^ ulpExponent x) +
            x / 2 ^ ulpExponent x| := by ring_nf
      _ ≤ |(roundHalfEven (x / 2 ^ ulpExponent x) : ℚ) - x / 2 ^ ulpExponent x| +
            |x / 2 ^ ulpExponent x| := abs_add _ _
      _ < 9007199254740992 + 1 := by linarith
  have h2 : |roundHalfEven (x / 2 ^ ulpExponent x)| < 9007199254740992 + 1 := by
    have : ((|roundHalfEven (x / 2 ^ ulpExponent x)| : ℤ) : ℚ) <
        ((9007199254740992 + 1 : ℤ) : ℚ) := by
      push_cast
      linarith
    exact_mod_cast this
  have h3 : (2 : ℤ) ^ 53 = 9007199254740992 := by norm_num
  rw [h3]
  omega

/-- Rounding a binary64 number returns it. -/
theorem roundDouble_idem (x : ℚ) : roundDouble (roundDouble x) = roundDouble x := by
  obtain ⟨m, hm, hx⟩ := roundDouble_rep x
  have h3 : (2 : ℤ) ^ 53 = 9007199254740992 := by norm_num
  rw [hx]
  by_cases hlt : |m| < 2 ^ 53
  · exact roundDouble_of_rep hlt (ulpExponent_ge x)
  · have heq : |m| = 9007199254740992 := by
      rw [h3] at hm hlt
      omega
    have h2 : (2 : ℚ) ≠ 0 := by norm_num
    rcases abs_eq (by norm_num : (0 : ℤ) ≤ 9007199254740992) |>.1 heq with h | h
    · have e1 : ((m : ℚ)) * 2 ^ ulpExponent x =
          ((4503599627370496 : ℤ) : ℚ) * 2 ^ (ulpExponent x + 1) := by
        rw [h, zpow_add₀ h2]
        push_cast
        ring
      rw [e1]
      exact roundDouble_of_rep (by norm_num) (by have := ulpExponent_ge x; omega)
    · have e1 : ((m : ℚ)) * 2 ^ ulpExponent x =
          ((-4503599627370496 : ℤ) : ℚ) * 2 ^ (ulpExponent x + 1) := by
        rw [h, zpow_add₀ h2]
        push_cast
        ring
      rw [e1]
      exact roundDouble_of_rep (by norm_num) (by have := ulpExponent_ge x; omega)

/-- Round to nearest: no binary64 number is nearer to `x` than `roundDouble x`. -/
theorem roundDouble_nearest (x y : ℚ) (hy : roundDouble y = y) :
    |roundDouble x - x| ≤ |y - x| := by
  by_cases hx : x = 0
  · subst hx
    rw [roundDouble_zero]
    simp
  have hyk : y = (roundHalfEven (y / 2 ^ ulpExponent y) : ℚ) * 2 ^ ulpExponent y := hy.symm
  by_cases hje : ulpExponent x ≤ ulpExponent y
  · obtain ⟨n, hn⟩ := two_zpow_intCast hje
    have hyn : y = ((roundHalfEven (y / 2 ^ ulpExponent y) * n : ℤ) : ℚ) *
        2 ^ ulpExponent x := by
      push_cast
      rw [mul_assoc, ← hn]
      exact hyk
    have h := roundDouble_nearest_multiple x (roundHalfEven (y / 2 ^ ulpExponent y) * n)
    rw [← hyn] at h
    exact h
  · have hlt : ulpExponent y < ulpExponent x := not_le.1 hje
    have hgt : -1074 < ulpExponent x := lt_of_le_of_lt (ulpExponent_ge y) hlt
    have hB : (2 : ℚ) ^ (ulpExponent x + 52) ≤ |x| := two_zpow_le_abs hx hgt
    have hyB : |y| ≤ (2 : ℚ) ^ (ulpExponent x + 52) := by
      have h1 := abs_lt_two_zpow y
      have h2 : (2 : ℚ) ^ (ulpExponent y + 53) ≤ 2 ^ (ulpExponent x + 52) :=
        zpow_le_zpow_right₀ (by norm_num) (by omega)
      linarith
    have hBm : (2 : ℚ) ^ (ulpExponent x + 52) =
        ((4503599627370496 : ℤ) : ℚ) * 2 ^ ulpExponent x := by
      rw [add_comm, zpow_add₀ (by norm_num)]
      norm_num
    rcases lt_or_gt_of_ne hx with hneg | hpos
    · have h := roundDouble_nearest_multiple x (-4503599627370496)
      have hBm' : ((-4503599627370496 : ℤ) : ℚ) * 2 ^ ulpExponent x =
          -(2 : ℚ) ^ (ulpExponent x + 52) := by
        rw [hBm]
        push_cast
        ring
      rw [hBm'] at h
      rw [abs_of_neg hneg] at hB
      have h1 : |-(2 : ℚ) ^ (ulpExponent x + 52) - x| = -(2 : ℚ) ^ (ulpExponent x + 52) - x :=
        abs_of_nonneg (by linarith)
      have h2 : -|y| ≤ y := neg_abs_le y
      have h3 : y - x ≤ |y - x| := le_abs_self _
      rw [h1] at h
      linarith
    · have h := roundDouble_nearest_multiple x 4503599627370496
      rw [← hBm] at h
      rw [abs_of_pos hpos] at hB
      have h1 : |(2 : ℚ) ^ (ulpExponent x + 52) - x| = x - (2 : ℚ) ^ (ulpExponent x + 52) := by
        rw [abs_sub_comm]
        exact abs_of_nonneg (by linarith)
      have h2 : y ≤ |y| := le_abs_self y
      have h3 : x - y ≤ |y - x| := by
        rw [abs_sub_comm]
        exact le_abs_self _
      rw [h1] at h
      linarith

/-- Rounding does not cross a binary64 number from above. -/
theorem le_roundDouble {x y : ℚ} (hy : roundDouble y = y) (h : y ≤ x) : y ≤ roundDouble x := by
  by_contra hlt
  have hlt' : roundDouble x < y := not_le.1 hlt
  have h1 := roundDouble_nearest x y hy
  rw [abs_sub_comm (roundDouble x) x, abs_of_nonneg (by linarith),
    abs_sub_comm y x, abs_of_nonneg (by linarith)] at h1
  linarith

/-- Rounding does not cross a binary64 number from below. -/
theorem roundDouble_le {x y : ℚ} (hy : roundDouble y = y) (h : x ≤ y) : roundDouble x ≤ y := by
  by_contra hlt
  have hlt' : y < roundDouble x := not_le.1 hlt
  have h1 := roundDouble_nearest x y hy
  rw [abs_of_nonneg (by linarith), abs_of_nonneg (by linarith)] at h1
  linarith

theorem roundDouble_nonneg_bounds {x : ℚ} (h : 0 ≤ x) :
    0 ≤ roundDouble x ∧ roundDouble x ≤ 2 * x := by
  have h0 := le_roundDouble roundDouble_zero h
  have h1 := roundDouble_nearest x 0 roundDouble_zero
  rw [zero_sub, abs_neg, abs_of_nonneg h] at h1
  have h2 := le_abs_self (roundDouble x - x)
  exact ⟨h0, by linarith⟩

theorem roundDouble_nonpos_bounds {x : ℚ} (h : x ≤ 0) :
    2 * x ≤ roundDouble x ∧ roundDouble x ≤ 0 := by
  have h0 := roundDouble_le roundDouble_zero h
  have h1 := roundDouble_nearest x 0 roundDouble_zero
  rw [zero_sub, abs_neg, abs_of_nonpos h] at h1
  have h2 := neg_abs_le (roundDouble x - x)
  exact ⟨by linarith, h0⟩


theorem roundDouble_lerpSpeed :
    roundDouble (4 / 100) = 5764607523034235 / 144115188075855872 := by
  have h := roundDouble_eq (x := 4 / 100) (m := 5764607523034235) (e := -57) (by norm_num)
    (by norm_num [abs_of_pos]) (by norm_num [abs_of_pos]) (by norm_num [abs_lt])
  rw [h]
  norm_num

theorem roundDouble_neg15 : roundDouble (-10 - 5) = -15 := by
  have h := roundDouble_eq (x := -10 - 5) (m := -8444249301319680) (e := -49) (by norm_num)
    (by norm_num [abs_of_neg]) (by norm_num [abs_of_neg]) (by norm_num [abs_lt])
  rw [h]
  norm_num

theorem roundDouble_step1 :
    roundDouble (-15 * (5764607523034235 / 144115188075855872)) =
      -5404319552844595 / 9007199254740992 := by
  have h := roundDouble_eq (x := -15 * (5764607523034235 / 144115188075855872))
    (m := -5404319552844595) (e := -53) (by norm_num)
    (by norm_num [abs_of_neg]) (by norm_num [abs_of_neg]) (by norm_num [abs_lt])
  rw [h]
  norm_num


/-! ## Camera easing in binary64 arithmetic -/

theorem vec3_ext {a b : Vec3} (hx : a.x = b.x) (hy : a.y = b.y) (hz : a.z = b.z) : a = b := by
  cases a
  cases b
  simp only at hx hy hz
  subst hx hy hz
  rfl


theorem between_abs {a b x : ℚ} (h : Between a b x) : |b - x| ≤ |b - a| := by
  unfold Between at h
  rcases le_total a b with hab | hba
  · rw [min_eq_left hab, max_eq_right hab] at h
    rw [abs_of_nonneg (by linarith), abs_of_nonneg (by linarith)]
    linarith
  · rw [min_eq_right hba, max_eq_left hba] at h
    rw [abs_of_nonpos (by linarith), abs_of_nonpos (by linarith)]
    linarith

theorem between_trans {a b x y : ℚ} (h1 : Between a b x) (h2 : Between x b y) :
    Between a b y := by
  unfold Between at *
  rcases le_total a b with hab | hba
  · rw [min_eq_left hab, max_eq_right hab] at h1 ⊢
    rw [min_eq_left h1.2, max_eq_right h1.2] at h2
    exact ⟨by linarith, h2.2⟩
  · rw [min_eq_right hba, max_eq_left hba] at h1 ⊢
    rw [min_eq_right h1.1, max_eq_left h1.1] at h2
    exact ⟨h2.1, by linarith⟩

theorem between_self {b x : ℚ} (h : Between b b x) : x = b := by
  unfold Between at h
  rw [min_self, max_self] at h
  exact le_antisymm h.2 h.1

theorem between_refl (a b : ℚ) : Between a b a := by
  unfold Between
  exact ⟨min_le_left _ _, le_max_left _ _⟩

theorem lerpSpeed_bounds : 0 ≤ roundDouble LERP_SPEED ∧ roundDouble LERP_SPEED ≤ 8 / 100 := by
  have h := roundDouble_nonneg_bounds (x := LERP_SPEED) (by unfold LERP_SPEED; norm_num)
  refine ⟨h.1, ?_⟩
  have h2 : 2 * LERP_SPEED = 8 / 100 := by unfold LERP_SPEED; norm_num
  linarith [h.2]

/-- One coordinate of one frame in binary64 arithmetic: the new value lies between the old
value `p` and the goal `g`. -/
theorem lerp_between {p g : ℚ} (hp : roundDouble p = p) (hg : roundDouble g = g) :
    Between p g
      (roundDouble (p + roundDouble (roundDouble (g - p) * roundDouble LERP_SPEED))) := by
  obtain ⟨hc0, hc1⟩ := lerpSpeed_bounds
  unfold Between
  rcases le_total p g with hpg | hgp
  · rw [min_eq_left hpg, max_eq_right hpg]
    obtain ⟨hd0, hd1⟩ := roundDouble_nonneg_bounds (x := g - p) (by linarith)
    have hprod0 : 0 ≤ roundDouble (g - p) * roundDouble LERP_SPEED := mul_nonneg hd0 hc0
    obtain ⟨he0, he1⟩ := roundDouble_nonneg_bounds hprod0
    have hprod1 : roundDouble (g - p) * roundDouble LERP_SPEED ≤ (2 * (g - p)) * (8 / 100) :=
      mul_le_mul hd1 hc1 hc0 (by linarith)
    exact ⟨le_roundDouble hp (by linarith), roundDouble_le hg (by linarith)⟩
  · rw [min_eq_right hgp, max_eq_left hgp]
    obtain ⟨hd0, hd1⟩ := roundDouble_nonpos_bounds (x := g - p) (by linarith)
    have hprod0 : roundDouble (g - p) * roundDouble LERP_SPEED ≤ 0 :=
      mul_nonpos_of_nonpos_of_nonneg hd1 hc0
    obtain ⟨he0, he1⟩ := roundDouble_nonpos_bounds hprod0
    have hprod1 : (2 * (g - p)) * (8 / 100) ≤
        roundDouble (g - p) * roundDouble LERP_SPEED := by
      have h1 : (2 * (g - p)) * (8 / 100) ≤ (2 * (g - p)) * roundDouble LERP_SPEED :=
        mul_le_mul_of_nonpos_left hc1 (by linarith)
      have h2 : (2 * (g - p)) * roundDouble LERP_SPEED ≤
          roundDouble (g - p) * roundDouble LERP_SPEED :=
        mul_le_mul_of_nonneg_right hd0 hc0
      linarith
    exact ⟨le_roundDouble hg (by linarith), roundDouble_le hp (by linarith)⟩

theorem animateCamera_normal (fl : ℚ → ℚ) {s : State} (t p : Vec3)
    (hrm : s.reducedMotion = false) :
    animateCamera fl s t p =
      { x := fl (p.x + fl (fl ((cameraGoal fl s t).x - p.x) * fl LERP_SPEED)),
        y := fl (p.y + fl (fl ((cameraGoal fl s t).y - p.y) * fl LERP_SPEED)),
        z := fl (p.z + fl (fl ((cameraGoal fl s t).z - p.z) * fl LERP_SPEED)) } := by
  simp [animateCamera, cameraGoal, hrm]

/-- The camera position `animate` computes is `animateCamera` in exact arithmetic. -/
theorem animate_cameraPosition (sin cos : ℚ → ℚ) (delta elapsed : ℚ) (count : Nat)
    {s : State} (sc : Scene) {t : Vec3} (ht : cameraAt s.currentSection = some t) :
    ∃ sc', animate sin cos delta elapsed count s sc = some sc' ∧
      sc'.cameraPosition = animateCamera id s t sc.cameraPosition := by
  cases hrm : s.reducedMotion with
  | true =>
    simp only [animate, ht, hrm, if_true]
    refine ⟨_, rfl, ?_⟩
    simp [animateCamera, hrm]
  | false =>
    simp only [animate, ht, hrm]
    refine ⟨_, rfl, ?_⟩
    simp [animateCamera, hrm]

theorem roundDouble_intCast {m : ℤ} (hm : |m| < 2 ^ 53) : roundDouble (m : ℚ) = m := by
  have h := roundDouble_of_rep (j := 0) hm (by norm_num)
  simpa using h

theorem cameraAt_double {i : Int} {t : Vec3} (h : cameraAt i = some t) :
    roundDouble t.x = t.x ∧ roundDouble t.y = t.y ∧ roundDouble t.z = t.z := by
  have hhalf : roundDouble (1 / 2) = 1 / 2 := by
    have h := roundDouble_of_rep (m := 1) (j := -1) (by norm_num) (by norm_num)
    norm_num at h
    simpa using h
  have hhalf' : roundDouble 2⁻¹ = 2⁻¹ := by
    simpa using hhalf
  have h0 : roundDouble 0 = 0 := roundDouble_zero
  have h5 : roundDouble 5 = 5 := by
    simpa using roundDouble_intCast (m := 5) (by norm_num)
  have h10 : roundDouble (-10) = -10 := by
    simpa using roundDouble_intCast (m := -10) (by norm_num)
  have h35 : roundDouble (-35) = -35 := by
    simpa using roundDouble_intCast (m := -35) (by norm_num)
  have h55 : roundDouble (-55) = -55 := by
    simpa using roundDouble_intCast (m := -55) (by norm_num)
  have h75 : roundDouble (-75) = -75 := by
    simpa using roundDouble_intCast (m := -75) (by norm_num)
  unfold cameraAt at h
  split at h
  · rename_i hi
    have hlt : i.toNat < 5 := by
      by_contra hge
      have : CAMERA_POSITIONS.get? i.toNat = none := by
        rw [List.get?_eq_none]
        simp only [CAMERA_POSITIONS, List.length_cons, List.length_nil]
        omega
      rw [this] at h
      cases h
    have hcases : i.toNat = 0 ∨ i.toNat = 1 ∨ i.toNat = 2 ∨ i.toNat = 3 ∨ i.toNat = 4 := by
      omega
    rcases hcases with hn | hn | hn | hn | hn <;> rw [hn] at h <;>
      simp [CAMERA_POSITIONS] at h <;> subst h <;> simp [h0, h5, h10, h35, h55, h75, hhalf']
  · cases h

theorem cameraGoal_double (s : State) {t : Vec3} (hz : roundDouble t.z = t.z) :
    roundDouble (cameraGoal roundDouble s t).x = (cameraGoal roundDouble s t).x ∧
    roundDouble (cameraGoal roundDouble s t).y = (cameraGoal roundDouble s t).y ∧
    roundDouble (cameraGoal roundDouble s t).z = (cameraGoal roundDouble s t).z :=
  ⟨roundDouble_idem _, roundDouble_idem _, hz⟩

/-- In binary64 arithmetic and normal mode, after any number of frames each camera
coordinate is a binary64 number between its start and its goal. -/
theorem animateCameraN_between {s : State} {t p : Vec3} (hrm : s.reducedMotion = false)
    (htz : roundDouble t.z = t.z) (hpx : roundDouble p.x = p.x)
    (hpy : roundDouble p.y = p.y) (hpz : roundDouble p.z = p.z) (n : Nat) :
    (roundDouble (animateCameraN roundDouble s t n p).x = (animateCameraN roundDouble s t n p).x ∧
      roundDouble (animateCameraN roundDouble s t n p).y =
        (animateCameraN roundDouble s t n p).y ∧
      roundDouble (animateCameraN roundDouble s t n p).z =
        (animateCameraN roundDouble s t n p).z) ∧
    Between p.x (cameraGoal roundDouble s t).x (animateCameraN roundDouble s t n p).x ∧
    Between p.y (cameraGoal roundDouble s t).y (animateCameraN roundDouble s t n p).y ∧
    Between p.z (cameraGoal roundDouble s t).z (animateCameraN roundDouble s t n p).z := by
  obtain ⟨hgx, hgy, hgz⟩ := cameraGoal_double s htz
  induction n with
  | zero => exact ⟨⟨hpx, hpy, hpz⟩, between_refl _ _, between_refl _ _, between_refl _ _⟩
  | succ n ih =>
    obtain ⟨⟨hx, hy, hz⟩, bx, by', bz⟩ := ih
    have hstep : animateCameraN roundDouble s t (n + 1) p =
        animateCamera roundDouble s t (animateCameraN roundDouble s t n p) := rfl
    rw [hstep, animateCamera_normal roundDouble t _ hrm]
    exact ⟨⟨roundDouble_idem _, roundDouble_idem _, roundDouble_idem _⟩,
      between_trans bx (lerp_between hx hgx), between_trans by' (lerp_between hy hgy),
      between_trans bz (lerp_between hz hgz)⟩

/-- In exact arithmetic the signed distance to the goal shrinks by the factor `96/100` per
frame. -/
theorem animateCameraN_exact_distance {s : State} (t p : Vec3)
    (hrm : s.reducedMotion = false) (n : Nat) :
    (cameraGoal id s t).x - (animateCameraN id s t n p).x =
      (96 / 100) ^ n * ((cameraGoal id s t).x - p.x) ∧
    (cameraGoal id s t).y - (animateCameraN id s t n p).y =
      (96 / 100) ^ n * ((cameraGoal id s t).y - p.y) ∧
    (cameraGoal id s t).z - (animateCameraN id s t n p).z =
      (96 / 100) ^ n * ((cameraGoal id s t).z - p.z) := by
  have hl : ∀ g q : ℚ, g - (q + (g - q) * LERP_SPEED) = 96 / 100 * (g - q) := by
    intro g q
    unfold LERP_SPEED
    ring
  induction n with
  | zero => exact ⟨by simp [animateCameraN], by simp [animateCameraN], by simp [animateCameraN]⟩
  | succ n ih =>
    obtain ⟨hx, hy, hz⟩ := ih
    have hstep : animateCameraN id s t (n + 1) p =
        animateCamera id s t (animateCameraN id s t n p) := rfl
    rw [hstep, animateCamera_normal id t _ hrm]
    simp only [id]
    refine ⟨?_, ?_, ?_⟩
    · rw [hl, hx, pow_succ]; ring
    · rw [hl, hy, pow_succ]; ring
    · rw [hl, hz, pow_succ]; ring

/-! ## Two frames from `z = 5` toward `z = -10`, evaluated in binary64 -/

theorem roundDouble_frame1_sum :
    roundDouble (5 + -5404319552844595 / 9007199254740992) =
      4953959590107546 / 1125899906842624 := by
  have h := roundDouble_eq (x := 5 + -5404319552844595 / 9007199254740992)
    (m := 4953959590107546) (e := -50) (by norm_num)
    (by norm_num [abs_of_pos]) (by norm_num [abs_of_pos]) (by norm_num [abs_lt])
  rw [h]
  norm_num

theorem roundDouble_frame2_diff :
    roundDouble (-10 - 4953959590107546 / 1125899906842624) =
      -8106479329266893 / 562949953421312 := by
  have h := roundDouble_eq (x := -10 - 4953959590107546 / 1125899906842624)
    (m := -8106479329266893) (e := -49) (by norm_num)
    (by norm_num [abs_of_neg]) (by norm_num [abs_of_neg]) (by norm_num [abs_lt])
  rw [h]
  norm_num

theorem roundDouble_frame2_product :
    roundDouble (-8106479329266893 / 562949953421312 *
        (5764607523034235 / 144115188075855872)) =
      -5188146770730812 / 9007199254740992 := by
  have h := roundDouble_eq
    (x := -8106479329266893 / 562949953421312 * (5764607523034235 / 144115188075855872))
    (m := -5188146770730812) (e := -53) (by norm_num)
    (by norm_num [abs_of_neg]) (by norm_num [abs_of_neg]) (by norm_num [abs_lt])
  rw [h]
  norm_num

theorem roundDouble_frame2_sum :
    roundDouble (4953959590107546 / 1125899906842624 +
        -5188146770730812 / 9007199254740992) =
      8610882487532389 / 2251799813685248 := by
  have h := roundDouble_eq
    (x := 4953959590107546 / 1125899906842624 + -5188146770730812 / 9007199254740992)
    (m := 8610882487532389) (e := -51) (by norm_num)
    (by norm_num [abs_of_pos]) (by norm_num [abs_of_pos]) (by norm_num [abs_lt])
  rw [h]
  norm_num

theorem roundDouble_ideal_two_frames :
    roundDouble (-10 - (96 / 100) ^ 2 * (-10 - 5)) =
      8610882487532388 / 2251799813685248 := by
  have h := roundDouble_eq (x := -10 - (96 / 100) ^ 2 * (-10 - 5))
    (m := 8610882487532388) (e := -51) (by norm_num)
    (by norm_num [abs_of_pos]) (by norm_num [abs_of_pos]) (by norm_num [abs_lt])
  rw [h]
  norm_num

theorem cameraAt_aboutState :
    cameraAt aboutState.currentSection = some { x := 0, y := 1 / 2, z := -10 } := by
  have h : aboutState.currentSection = 1 := by decide
  rw [h]
  rfl

/-- The `z` coordinate of one frame toward `z = -10` in binary64 arithmetic. -/
theorem animateCamera_z_toward_about (p : Vec3) :
    (animateCamera roundDouble aboutState { x := 0, y := 1 / 2, z := -10 } p).z =
      roundDouble (p.z + roundDouble (roundDouble (-10 - p.z) * roundDouble (4 / 100))) := by
  rw [animateCamera_normal roundDouble _ _ (by decide)]
  rfl

theorem two_frames_z :
    (animateCameraN roundDouble aboutState { x := 0, y := 1 / 2, z := -10 } 2
      { x := 0, y := 0, z := 5 }).z = 8610882487532389 / 2251799813685248 := by
  have h1 : (animateCameraN roundDouble aboutState { x := 0, y := 1 / 2, z := -10 } 1
      { x := 0, y := 0, z := 5 }).z = 4953959590107546 / 1125899906842624 := by
    show (animateCamera roundDouble aboutState { x := 0, y := 1 / 2, z := -10 }
      { x := 0, y := 0, z := 5 }).z = _
    rw [animateCamera_z_toward_about, roundDouble_lerpSpeed]
    show roundDouble (5 + roundDouble (roundDouble (-10 - 5) *
      (5764607523034235 / 144115188075855872))) = _
    rw [roundDouble_neg15, roundDouble_step1, roundDouble_frame1_sum]
  show (animateCamera roundDouble aboutState { x := 0, y := 1 / 2, z := -10 }
    (animateCameraN roundDouble aboutState { x := 0, y := 1 / 2, z := -10 } 1
      { x := 0, y := 0, z := 5 })).z = _
  rw [animateCamera_z_toward_about, h1, roundDouble_lerpSpeed, roundDouble_frame2_diff,
    roundDouble_frame2_product, roundDouble_frame2_sum]

theorem aboutState_range :
    |aboutState.mouseX| ≤ 2 ^ 1000 ∧ |aboutState.mouseY| ≤ 2 ^ 1000 ∧
    |(0 : ℚ)| ≤ 2 ^ 1000 ∧ |(0 : ℚ)| ≤ 2 ^ 1000 ∧ |(5 : ℚ)| ≤ 2 ^ 1000 := by
  have hx : aboutState.mouseX = 0 := rfl
  have hy : aboutState.mouseY = 0 := rfl
  rw [hx, hy]
  norm_num [abs_le]

theorem pointerState_range :
    |pointerState.mouseX| ≤ 2 ^ 1000 ∧ |pointerState.mouseY| ≤ 2 ^ 1000 ∧
    |(0 : ℚ)| ≤ 2 ^ 1000 ∧ |(0 : ℚ)| ≤ 2 ^ 1000 ∧ |(5 : ℚ)| ≤ 2 ^ 1000 := by
  have hx : pointerState.mouseX = 960 / 1280 * 2 - 1 := rfl
  have hy : pointerState.mouseY = -(180 / 720) * 2 + 1 := rfl
  rw [hx, hy]
  norm_num [abs_le]

theorem roundHalfEven_tie (n : ℤ) :
    roundHalfEven ((n : ℚ) + 1 / 2) = if n % 2 = 0 then n else n + 1 := by
  have hf : ⌊(n : ℚ) + 1 / 2⌋ = n := by
    rw [Int.floor_eq_iff]
    constructor <;> norm_num
  unfold roundHalfEven
  rw [hf]
  have h1 : ¬ ((n : ℚ) + 1 / 2 - (n : ℚ) < 1 / 2) := by norm_num
  have h2 : ¬ ((1 : ℚ) / 2 < (n : ℚ) + 1 / 2 - (n : ℚ)) := by norm_num
  rw [if_neg h1, if_neg h2]

theorem roundDouble_tie_down : roundDouble (2 ^ 53 + 1) = 2 ^ 53 := by
  have he : ulpExponent (2 ^ 53 + 1) = 1 :=
    ulpExponent_eq (by norm_num) (by norm_num [abs_of_pos]) (by norm_num [abs_of_pos])
  unfold roundDouble
  rw [he]
  have hx : ((2 : ℚ) ^ 53 + 1) / 2 ^ (1 : ℤ) = ((4503599627370496 : ℤ) : ℚ) + 1 / 2 := by
    norm_num
  rw [hx, roundHalfEven_tie]
  norm_num

theorem roundDouble_tie_up : roundDouble (2 ^ 53 + 3) = 2 ^ 53 + 4 := by
  have he : ulpExponent (2 ^ 53 + 3) = 1 :=
    ulpExponent_eq (by norm_num) (by norm_num [abs_of_pos]) (by norm_num [abs_of_pos])
  unfold roundDouble
  rw [he]
  have hx : ((2 : ℚ) ^ 53 + 3) / 2 ^ (1 : ℤ) = ((4503599627370497 : ℤ) : ℚ) + 1 / 2 := by
    norm_num
  rw [hx, roundHalfEven_tie]
  norm_num

theorem roundDouble_is_double (x : ℚ) :
    ∃ m j : ℤ, |m| ≤ 2 ^ 53 ∧ -1074 ≤ j ∧ roundDouble x = (m : ℚ) * 2 ^ j := by
  obtain ⟨m, hm, h⟩ := roundDouble_rep x
  exact ⟨m, ulpExponent x, hm, ulpExponent_ge x, h⟩

/-! ## Claims -/

/-- C1: for every index `i` with `i < 0` or `i ≥ SECTION_COUNT` and every state,
`goToSection(i)` returns the state it was given: `currentSection`, `targetSection`,
`isTransitioning`, `scrollCooldown` and the list of pending timers are all unchanged, so
the index is not clamped to a boundary section. -/
theorem goToSection_out_of_range (i : Int) (s : State) (h : i < 0 ∨ SECTION_COUNT ≤ i) :
    goToSection i s = s :=
  goToSection_rejected (by rcases h with h | h; exact Or.inl h; exact Or.inr (Or.inl h))

theorem goToSection_out_of_range_witness :
    ((7 : Int) < 0 ∨ SECTION_COUNT ≤ 7) ∧ goToSection 7 homeState = homeState :=
  ⟨by decide, goToSection_out_of_range 7 homeState (by decide)⟩

/-- C4: `goToSection(currentSection)` returns the state it was given (no field changes, no
timer is scheduled), and for every index `i` and every state calling `goToSection(i)` twice
in a row gives the same state as calling it once. -/
theorem goToSection_current_noop (s : State) :
    goToSection s.currentSection s = s ∧
    ∀ i : Int, goToSection i (goToSection i s) = goToSection i s := by
  refine ⟨goToSection_rejected (Or.inr (Or.inr (Or.inl rfl))), fun i => ?_⟩
  by_cases h : i < 0 ∨ i ≥ SECTION_COUNT ∨ i = s.currentSection ∨ s.isTransitioning = true
  · rw [goToSection_rejected h, goToSection_rejected h]
  · apply goToSection_rejected
    right; right; left
    unfold goToSection
    rw [if_neg h]
    rfl

/-- C7: with the modal closed, `onKeyDown` on a navigation key is `goToSection` of the
key's target (`current+1` for ArrowDown/PageDown, `current-1` for ArrowUp/PageUp, `0` for
Home, `SECTION_COUNT-1` for End, `d-1` for the digit `d` of 1..5); every other key returns
the state unchanged; `scrollCooldown` is never modified and the outcome does not depend on
it; End from a section other than the last with no transition in flight gives
`currentSection = 4`. -/
theorem onKeyDown_is_goToSection (s : State) (hm : s.modalOpen = false) :
    (∀ key ∈ navKeys, onKeyDown key s = goToSection (keyTarget key s.currentSection) s) ∧
    (∀ c : Int, keyTarget "ArrowDown" c = c + 1 ∧ keyTarget "PageDown" c = c + 1 ∧
      keyTarget "ArrowUp" c = c - 1 ∧ keyTarget "PageUp" c = c - 1 ∧
      keyTarget "Home" c = 0 ∧ keyTarget "End" c = SECTION_COUNT - 1 ∧
      keyTarget "1" c = 0 ∧ keyTarget "2" c = 1 ∧ keyTarget "3" c = 2 ∧
      keyTarget "4" c = 3 ∧ keyTarget "5" c = 4) ∧
    (∀ key, key ∉ navKeys → onKeyDown key s = s) ∧
    (∀ key, (onKeyDown key s).scrollCooldown = s.scrollCooldown) ∧
    (∀ key b, onKeyDown key { s with scrollCooldown := b } =
      { onKeyDown key s with scrollCooldown := b }) ∧
    (s.isTransitioning = false → s.currentSection ≠ 4 →
      (onKeyDown "End" s).currentSection = 4) := by
  refine ⟨fun key hk => onKeyDown_navKey hk s hm, fun c => by simp [keyTarget],
    fun key hk => onKeyDown_other_key hk s hm, fun key => ?_, fun key b => ?_,
    fun ht hc => ?_⟩
  · by_cases hk : key ∈ navKeys
    · rw [onKeyDown_navKey hk s hm, goToSection_scrollCooldown]
    · rw [onKeyDown_other_key hk s hm]
  · by_cases hk : key ∈ navKeys
    · rw [onKeyDown_navKey hk { s with scrollCooldown := b } hm, onKeyDown_navKey hk s hm]
      exact goToSection_set_scrollCooldown _ b s
    · rw [onKeyDown_other_key hk { s with scrollCooldown := b } hm,
        onKeyDown_other_key hk s hm]
  · rw [onKeyDown_navKey (by simp [navKeys]) s hm]
    have h4 : keyTarget "End" s.currentSection = 4 := by simp [keyTarget, SECTION_COUNT]
    rw [h4, goToSection_accepted (by decide) (by decide) (fun h => hc h.symm) ht]

theorem onKeyDown_is_goToSection_witness :
    homeState.modalOpen = false ∧ (onKeyDown "End" homeState).currentSection = 4 :=
  ⟨rfl, (onKeyDown_is_goToSection homeState rfl).2.2.2.2.2 rfl (by decide)⟩

/-- C8: a click while `currentSection = 3` and the modal is closed, whose first intersection
belongs to the card of project `k`, leaves `modalOpen = true` and the modal visible with the
title, description, stack markup (one `<span class="stack-badge">` element per entry of the
stack, concatenated) and repository link of `projects[k]`; the intersections
after the first do not matter; with no intersection the state is unchanged. -/
theorem onClick_opens_nearest (s : State) (k : Nat) (p : Project) (rest : List Intersection)
    (hsec : s.currentSection = 3) (hm : s.modalOpen = false)
    (hk : projects.get? k = some p) :
    (onClick (cardHit k :: rest) s).modalOpen = true ∧
    (onClick (cardHit k :: rest) s).modalVisible = true ∧
    (onClick (cardHit k :: rest) s).modalTitle = p.title ∧
    (onClick (cardHit k :: rest) s).modalDescription = p.description ∧
    (onClick (cardHit k :: rest) s).modalStack = stackMarkup p.stack ∧
    (onClick (cardHit k :: rest) s).modalStack =
      String.join (p.stack.map fun t => "<span class=\"stack-badge\">" ++ t ++ "</span>") ∧
    (onClick (cardHit k :: rest) s).githubHref = p.githubUrl ∧
    onClick (cardHit k :: rest) s = onClick [cardHit k] s ∧
    onClick [] s = s := by
  have hp : projectAt (k : Int) = some p := by rw [projectAt_natCast, hk]
  have h1 : ∀ l, onClick (cardHit k :: l) s = openModal k s := by
    intro l
    simp [onClick, hsec, hm, cardHit]
  have h0 : onClick [] s = s := by simp [onClick]
  rw [h1 rest, h1 [], openModal_of_project hp]
  exact ⟨rfl, rfl, rfl, rfl, rfl, rfl, rfl, rfl, h0⟩

theorem onClick_opens_nearest_witness :
    (onClick (cardHit 2 :: [cardHit 0])
      { homeState with currentSection := 3, targetSection := 3 }).modalTitle = "FocusBuddy" ∧
    (onClick (cardHit 2 :: [cardHit 0])
      { homeState with currentSection := 3, targetSection := 3 }).modalStack =
      "<span class=\"stack-badge\">React Native</span><span class=\"stack-badge\">Spring Boot</span><span class=\"stack-badge\">SQL</span><span class=\"stack-badge\">Git & Github</span>" :=
  have h := onClick_opens_nearest { homeState with currentSection := 3, targetSection := 3 } 2
    { title := "FocusBuddy",
      description := "FocusBuddy is a social productivity app that enforces real execution by making progress public within small groups and penalizing inconsistency instead of rewarding fake streaks.",
      stack := ["React Native", "Spring Boot", "SQL", "Git & Github"],
      githubUrl := "https://github.com/CodeItAlone/FocussBuddy",
      liveUrl := some "https://example.com" }
    [cardHit 0] rfl rfl rfl
  ⟨h.2.2.1, h.2.2.2.2.2.1.trans (by rfl)⟩

/-- C9: a click while `currentSection ≠ 3` or while the modal is open returns the state it
was given, whatever intersections the ray caster would report: neither `modalOpen`, nor the
modal contents, nor any navigation field changes. -/
theorem onClick_inactive (s : State) (intersects : List Intersection)
    (h : s.currentSection ≠ 3 ∨ s.modalOpen = true) : onClick intersects s = s := by
  unfold onClick
  rw [if_pos h]

theorem onClick_inactive_witness :
    (homeState.currentSection ≠ 3 ∨ homeState.modalOpen = true) ∧
    onClick [cardHit 2] homeState = homeState :=
  ⟨Or.inl (by decide), onClick_inactive homeState [cardHit 2] (Or.inl (by decide))⟩

/-- C10: for an existing project index `k` and every prior state, `openModal(k)` followed
by `openModal(k)` gives the same state as a single `openModal(k)`: `modalOpen = true`, the
modal visible, and title, description, stack, links and link visibility those of
`projects[k]`. -/
theorem openModal_idempotent (k : Int) (p : Project) (s : State)
    (hk : projectAt k = some p) :
    openModal k (openModal k s) = openModal k s ∧
    (openModal k s).modalOpen = true ∧ (openModal k s).modalVisible = true ∧
    (openModal k s).modalAriaHidden = "false" ∧
    (openModal k s).modalTitle = p.title ∧
    (openModal k s).modalDescription = p.description ∧
    (openModal k s).modalStack = stackMarkup p.stack ∧
    (openModal k s).githubHref = p.githubUrl ∧
    (openModal k s).liveDisplay = (if truthyUrl p.liveUrl then "inline-flex" else "none") := by
  refine ⟨?_, ?_⟩
  · rw [openModal_of_project hk (openModal k s), openModal_of_project hk s]
    by_cases hl : truthyUrl p.liveUrl = true <;> simp [hl]
  · rw [openModal_of_project hk s]
    exact ⟨rfl, rfl, rfl, rfl, rfl, rfl, rfl, rfl⟩

theorem openModal_idempotent_witness :
    openModal 2 (openModal 2 homeState) = openModal 2 homeState :=
  (openModal_idempotent 2
    { title := "FocusBuddy",
      description := "FocusBuddy is a social productivity app that enforces real execution by making progress public within small groups and penalizing inconsistency instead of rewarding fake streaks.",
      stack := ["React Native", "Spring Boot", "SQL", "Git & Github"],
      githubUrl := "https://github.com/CodeItAlone/FocussBuddy",
      liveUrl := some "https://example.com" }
    homeState rfl).1

/-- C2 (failing input): after `modalTrace` the modal is open on section 3 with no
transition in flight; a click on the nav link of section 0 then calls `goToSection(0)`,
which is accepted although `modalOpen` is still true: `currentSection` and `targetSection`
become 0 and `isTransitioning` becomes true. -/
theorem navClick_while_modal_open :
    (run modalTrace homeState).modalOpen = true ∧
    (run modalTrace homeState).currentSection = 3 ∧
    (run modalTrace homeState).isTransitioning = false ∧
    (step (.navClick 0) (run modalTrace homeState)).modalOpen = true ∧
    (step (.navClick 0) (run modalTrace homeState)).currentSection = 0 ∧
    (step (.navClick 0) (run modalTrace homeState)).targetSection = 0 ∧
    (step (.navClick 0) (run modalTrace homeState)).isTransitioning = true := by
  decide

/-- C3: when a reachable idle page accepts `goToSection(i)`, the lock is taken and a settle
callback is scheduled 1200 ms later; it stays pending as long as fewer than 1200 ms have
passed, whatever events arrive; while it is pending every `goToSection(j)` returns the
state unchanged, for every `j`; and when the event loop runs that callback,
`isTransitioning` becomes false and `goToSection(j)` is accepted for every `j` in `[0,5)`
other than `currentSection`. -/
theorem transition_lock (s : State) (i : Int) (hr : Reachable s)
    (h0 : 0 ≤ i) (h5 : i < SECTION_COUNT) (hc : i ≠ s.currentSection)
    (ht : s.isTransitioning = false) :
    (goToSection i s).isTransitioning = true ∧
    ({ due := s.now + 1200, cb := .settle } : Timer) ∈ (goToSection i s).timers ∧
    (∀ es, (run es (goToSection i s)).now < s.now + 1200 →
      ({ due := s.now + 1200, cb := .settle } : Timer) ∈ (run es (goToSection i s)).timers) ∧
    (∀ es, ({ due := s.now + 1200, cb := .settle } : Timer) ∈
        (run es (goToSection i s)).timers →
      ∀ j, goToSection j (run es (goToSection i s)) = run es (goToSection i s)) ∧
    (∀ es, earliest (run es (goToSection i s)).timers =
        some { due := s.now + 1200, cb := .settle } →
      s.now + 1200 ≤ (run es (goToSection i s)).now →
      (runTimer (run es (goToSection i s))).isTransitioning = false ∧
      ∀ j, 0 ≤ j → j < SECTION_COUNT →
        j ≠ (runTimer (run es (goToSection i s))).currentSection →
        (goToSection j (runTimer (run es (goToSection i s)))).currentSection = j ∧
        (goToSection j (runTimer (run es (goToSection i s)))).targetSection = j ∧
        (goToSection j (runTimer (run es (goToSection i s)))).isTransitioning = true) := by
  have hmem : ({ due := s.now + 1200, cb := .settle } : Timer) ∈ (goToSection i s).timers := by
    rw [goToSection_accepted h0 h5 hc ht]
    simp
  have hreach : Reachable (goToSection i s) := reachable_step hr (.navClick i)
  refine ⟨by rw [goToSection_accepted h0 h5 hc ht], hmem, ?_, ?_, ?_⟩
  · intro es hd
    exact pending_of_not_due es hmem hd
  · intro es hp j
    have hinv := navInv_of_reachable (reachable_run hreach es)
    exact goToSection_rejected
      (Or.inr (Or.inr (Or.inr (transitioning_of_settle_pending hinv hp rfl))))
  · intro es het hd
    have hfire : (runTimer (run es (goToSection i s))).isTransitioning = false := by
      simp [runTimer, het, hd, fire]
    refine ⟨hfire, fun j hj0 hj5 hjc => ?_⟩
    rw [goToSection_accepted hj0 hj5 hjc hfire]
    exact ⟨rfl, rfl, rfl⟩

theorem transition_lock_witness :
    goToSection 4 (run [.elapse 1199, .timer] (goToSection 2 homeState)) =
      run [.elapse 1199, .timer] (goToSection 2 homeState) :=
  (transition_lock homeState 2 (reachable_init initial_homeState) (by decide) (by decide)
    (by decide) rfl).2.2.2.1 [.elapse 1199, .timer] (by decide) 4

/-- C5: when a reachable idle page is asked for a valid section `i` other than the current
one, `goToSection(i)` immediately gives `currentSection = i`, `targetSection = i` and
`isTransitioning = true`; once 400 ms have passed and the due callbacks have run, the
overlay panel of index `i` (`hero-overlay`, `about-overlay`, `skills-overlay`,
`projects-overlay`, `contact-overlay` for 0..4) is the only active overlay and the lock is
still held; once
1200 ms have passed and the due callbacks have run, `isTransitioning = false` and
`currentSection` is still `i`. -/
theorem goToSection_scenario (s : State) (i : Int) (hr : Reachable s)
    (h0 : 0 ≤ i) (h5 : i < SECTION_COUNT) (hc : i ≠ s.currentSection)
    (ht : s.isTransitioning = false) :
    (goToSection i s).currentSection = i ∧ (goToSection i s).targetSection = i ∧
    (goToSection i s).isTransitioning = true ∧
    (∃ id, overlayId i = some id ∧
      (advance 400 (goToSection i s)).activeOverlays = [id]) ∧
    (advance 400 (goToSection i s)).activeOverlays =
      [if i = 0 then "hero-overlay" else if i = 1 then "about-overlay"
        else if i = 2 then "skills-overlay" else if i = 3 then "projects-overlay"
        else "contact-overlay"] ∧
    (advance 400 (goToSection i s)).isTransitioning = true ∧
    (advance 1200 (goToSection i s)).isTransitioning = false ∧
    (advance 1200 (goToSection i s)).currentSection = i := by
  have hinv := navInv_of_reachable hr
  obtain ⟨hfs, hfr⟩ := accepted_filters hinv h0 h5 hc ht
  have hreach : Reachable (goToSection i s) := reachable_step hr (.navClick i)
  have hcur : (goToSection i s).currentSection = i := by
    rw [goToSection_accepted h0 h5 hc ht]
  have hnow : (goToSection i s).now = s.now := goToSection_now i s
  have hmem : ({ due := s.now + 1200, cb := .settle } : Timer) ∈ (goToSection i s).timers := by
    have : ({ due := s.now + 1200, cb := .settle } : Timer) ∈
        (goToSection i s).timers.filter isSettle := by rw [hfs]; simp
    exact (List.mem_filter.1 this).1
  -- the state 400 ms later
  have hinv4 := navInv_of_reachable (reachable_advance hreach 400)
  have hset4 := advance_settled 400 (goToSection i s)
  have hsub4 := (advance_sublist 400 (goToSection i s)).subset
  have hnow4 : (advance 400 (goToSection i s)).now = s.now + 400 := by
    rw [advance_now, hnow]
  have hcur4 : (advance 400 (goToSection i s)).currentSection = i := by
    rw [advance_currentSection, hcur]
  have hpend4 : ({ due := s.now + 1200, cb := .settle } : Timer) ∈
      (advance 400 (goToSection i s)).timers := by
    rw [advance_eq_run]
    apply pending_of_not_due _ hmem
    rw [← advance_eq_run, hnow4]
    show s.now + 400 < s.now + 1200
    omega
  have htr4 : (advance 400 (goToSection i s)).isTransitioning = true :=
    transitioning_of_settle_pending hinv4 hpend4 rfl
  -- the state 1200 ms later
  have hinv12 := navInv_of_reachable (reachable_advance hreach 1200)
  have hset12 := advance_settled 1200 (goToSection i s)
  have hsub12 := (advance_sublist 1200 (goToSection i s)).subset
  have hnow12 : (advance 1200 (goToSection i s)).now = s.now + 1200 := by
    rw [advance_now, hnow]
  have hov4 : ∃ id, overlayId i = some id ∧
      (advance 400 (goToSection i s)).activeOverlays = [id] := by
    obtain ⟨a, _, halt⟩ := hinv4.2.2.2.2 htr4
    rcases halt with ⟨hr1, _⟩ | ⟨_, id, hid, hov⟩
    · exfalso
      have hx : (⟨a + 400, .reveal (advance 400 (goToSection i s)).currentSection⟩ : Timer) ∈
          (advance 400 (goToSection i s)).timers.filter isReveal := by rw [hr1]; simp
      have hx1 := (List.mem_filter.1 hx).1
      have hx2 : (⟨a + 400, .reveal (advance 400 (goToSection i s)).currentSection⟩ : Timer) ∈
          (goToSection i s).timers.filter isReveal :=
        List.mem_filter.2 ⟨hsub4 hx1, rfl⟩
      rw [hfr] at hx2
      have hx3 := hset4 _ hx1
      rw [hnow4] at hx3
      have hx4 : a + 400 = s.now + 400 := by
        have := List.mem_singleton.1 hx2
        injection this
      simp only at hx3
      omega
    · rw [hcur4] at hid
      exact ⟨id, hid, hov⟩
  have hpanel : ∀ id, overlayId i = some id →
      id = (if i = 0 then "hero-overlay" else if i = 1 then "about-overlay"
        else if i = 2 then "skills-overlay" else if i = 3 then "projects-overlay"
        else "contact-overlay") := by
    intro id hid
    have h5' : i < 5 := h5
    have hcases : i = 0 ∨ i = 1 ∨ i = 2 ∨ i = 3 ∨ i = 4 := by omega
    rcases hcases with h | h | h | h | h <;> subst h <;>
      simp [overlayId, overlayIds] at hid <;> simp [hid]
  refine ⟨hcur, by rw [goToSection_accepted h0 h5 hc ht],
    by rw [goToSection_accepted h0 h5 hc ht], hov4, ?_, htr4, ?_, ?_⟩
  · obtain ⟨id, hid, hact⟩ := hov4
    rw [hact, hpanel id hid]
  · cases hT : (advance 1200 (goToSection i s)).isTransitioning with
    | false => rfl
    | true =>
      exfalso
      obtain ⟨a, hsa, _⟩ := hinv12.2.2.2.2 hT
      have hx : ({ due := a + 1200, cb := .settle } : Timer) ∈
          (advance 1200 (goToSection i s)).timers.filter isSettle := by rw [hsa]; simp
      have hx1 := (List.mem_filter.1 hx).1
      have hx2 : ({ due := a + 1200, cb := .settle } : Timer) ∈
          (goToSection i s).timers.filter isSettle :=
        List.mem_filter.2 ⟨hsub12 hx1, rfl⟩
      rw [hfs] at hx2
      have hx3 := hset12 _ hx1
      rw [hnow12] at hx3
      have hx4 : a + 1200 = s.now + 1200 := by
        have := List.mem_singleton.1 hx2
        injection this
      simp only at hx3
      omega
  · rw [advance_currentSection, hcur]

theorem goToSection_scenario_witness :
    (goToSection 2 homeState).currentSection = 2 ∧
    (goToSection 2 homeState).targetSection = 2 ∧
    (goToSection 2 homeState).isTransitioning = true ∧
    (advance 400 (goToSection 2 homeState)).activeOverlays = ["skills-overlay"] ∧
    (advance 400 (goToSection 2 homeState)).isTransitioning = true ∧
    (advance 1200 (goToSection 2 homeState)).isTransitioning = false ∧
    (advance 1200 (goToSection 2 homeState)).currentSection = 2 :=
  have h := goToSection_scenario homeState 2 (reachable_init initial_homeState) (by decide)
    (by decide) (by decide) rfl
  ⟨h.1, h.2.1, h.2.2.1, h.2.2.2.2.1, h.2.2.2.2.2.1, h.2.2.2.2.2.2.1, h.2.2.2.2.2.2.2⟩

/-- C6: on a reachable idle page with the modal closed, no cooldown and a next section to
go to, a wheel event with `deltaY > 0` moves `currentSection` from `c` to `c + 1`; a second
wheel event right after it, or after any events among which no cooldown callback runs,
changes no state; while only time passes and timers run, `currentSection` stays `c + 1`; no
cooldown callback can run before 1000 ms have passed, so a second wheel event within
1000 ms leaves `currentSection = c + 1`; and along any events among which no cooldown
callback runs, at most one wheel or touch event changes `currentSection`. -/
theorem wheel_debounce (s : State) (d1 d2 : ℚ) (hr : Reachable s)
    (ht : s.isTransitioning = false) (hm : s.modalOpen = false)
    (hc : s.scrollCooldown = false) (h5 : s.currentSection + 1 < SECTION_COUNT)
    (hd1 : 0 < d1) :
    (onWheel d1 s).currentSection = s.currentSection + 1 ∧
    onWheel d2 (onWheel d1 s) = onWheel d1 s ∧
    (∀ es, cooldownQuiet es (onWheel d1 s) = true →
      onWheel d2 (run es (onWheel d1 s)) = run es (onWheel d1 s)) ∧
    (∀ es, (∀ e ∈ es, isPassive e = true) →
      (run es (onWheel d1 s)).currentSection = s.currentSection + 1) ∧
    (∀ es, (run es (onWheel d1 s)).now < s.now + 1000 →
      cooldownQuiet es (onWheel d1 s) = true) ∧
    (∀ es, (∀ e ∈ es, isPassive e = true) → (run es (onWheel d1 s)).now < s.now + 1000 →
      (onWheel d2 (run es (onWheel d1 s))).currentSection = s.currentSection + 1) ∧
    (∀ s' es, cooldownQuiet es s' = true → gestureChanges es s' ≤ 1) := by
  have hinv := navInv_of_reachable hr
  have hcool := coolInv_of_reachable hr
  have hw := onWheel_forward hd1 hc hm hinv.1 h5
  have hacc := goToSection_accepted (i := s.currentSection + 1) (s := s)
    (by have := hinv.1; omega) h5 (by omega) ht
  have hcur : (onWheel d1 s).currentSection = s.currentSection + 1 := by
    rw [hw]
    show (goToSection (s.currentSection + 1) s).currentSection = _
    rw [hacc]
  have hcd : (onWheel d1 s).scrollCooldown = true := by rw [hw]; rfl
  have hfilt : (onWheel d1 s).timers.filter isCooldown =
      [{ due := s.now + 1000, cb := .cooldownEnd }] := by
    rw [hw]
    show ((goToSection (s.currentSection + 1) s).timers ++ _).filter isCooldown = _
    rw [List.filter_append, goToSection_filter_isCooldown, hcool.1 hc, goToSection_now]
    rfl
  have hblock : ∀ es, cooldownQuiet es (onWheel d1 s) = true →
      onWheel d2 (run es (onWheel d1 s)) = run es (onWheel d1 s) := by
    intro es hq
    exact gesture_blocked (e := .wheel d2) rfl (quiet_blocks es hcd hq).2
  refine ⟨hcur, gesture_blocked (e := .wheel d2) rfl hcd, hblock, ?_, ?_, ?_, ?_⟩
  · intro es hp
    rw [run_passive_currentSection es _ hp, hcur]
  · intro es hd
    exact quiet_of_not_due es hcd hfilt hd
  · intro es hp hd
    rw [hblock es (quiet_of_not_due es hcd hfilt hd), run_passive_currentSection es _ hp, hcur]
  · intro s' es hq
    exact gestureChanges_le_one es s' hq

theorem wheel_debounce_witness :
    (onWheel 100 aboutState).currentSection = 2 ∧
    onWheel 100 (onWheel 100 aboutState) = onWheel 100 aboutState :=
  have h := wheel_debounce aboutState 100 100
    ⟨homeState, [.keyDown "2", .elapse 1200, .timer, .timer], initial_homeState, rfl⟩
    (by decide) (by decide) (by decide) (by decide) (by norm_num)
  ⟨h.1, h.2.1⟩

/-- C11: on a state with `modalOpen = false`, the modal not visible and `aria-hidden` equal
to `true`, `closeModal()` returns the identical state; from any state it gives
`modalOpen = false` and leaves `currentSection`, `targetSection`, `isTransitioning`,
`scrollCooldown`, the clock and the pending timers untouched. -/
theorem closeModal_closed_noop (s : State) :
    (s.modalOpen = false → s.modalVisible = false → s.modalAriaHidden = "true" →
      closeModal s = s) ∧
    (closeModal s).modalOpen = false ∧
    (closeModal s).currentSection = s.currentSection ∧
    (closeModal s).targetSection = s.targetSection ∧
    (closeModal s).isTransitioning = s.isTransitioning ∧
    (closeModal s).scrollCooldown = s.scrollCooldown ∧
    (closeModal s).timers = s.timers ∧ (closeModal s).now = s.now := by
  refine ⟨?_, rfl, rfl, rfl, rfl, rfl, rfl, rfl⟩
  intro h1 h2 h3
  cases s
  simp only at h1 h2 h3
  subst h1 h2 h3
  rfl

theorem closeModal_closed_noop_witness : closeModal homeState = homeState :=
  (closeModal_closed_noop homeState).1 rfl rfl rfl

/-- C12: for an index `k` that names no project (`k < 0` or `k ≥ projects.length`),
`openModal(k)` returns the state unchanged; for every existing `k` it sets
`modalOpen = true`, makes the modal visible and fills title, description and stack markup
(one `<span class="stack-badge">` element per entry, concatenated) from `projects[k]`; the
live-demo link is displayed (`inline-flex`, with `href` set to the URL) when
`projects[k].liveUrl` is truthy, that is neither `null` nor the empty string, and hidden
(`none`, `href` left as it was) otherwise; for the projects of `data.js` truthy is the same
as present.  The same function read against any project table (`openModalIn`, which is
`openModal` at the table `projects`) opens entry `k` and shows or hides the link by the
same test, so an entry without `liveUrl` gets the link hidden. -/
theorem openModal_validates (k : Int) (s : State) :
    ((k < 0 ∨ (projects.length : Int) ≤ k) → openModal k s = s) ∧
    (0 ≤ k → k < (projects.length : Int) → ∃ p, projectAt k = some p) ∧
    (∀ p, projectAt k = some p →
      (openModal k s).modalOpen = true ∧ (openModal k s).modalVisible = true ∧
      (openModal k s).modalTitle = p.title ∧
      (openModal k s).modalDescription = p.description ∧
      (openModal k s).modalStack = stackMarkup p.stack ∧
      (openModal k s).modalStack =
        String.join (p.stack.map fun t => "<span class=\"stack-badge\">" ++ t ++ "</span>") ∧
      (openModal k s).liveDisplay =
        (if truthyUrl p.liveUrl = true then "inline-flex" else "none") ∧
      (openModal k s).liveDisplay =
        (if p.liveUrl = none ∨ p.liveUrl = some "" then "none" else "inline-flex") ∧
      (openModal k s).liveHref =
        (if p.liveUrl = none ∨ p.liveUrl = some "" then s.liveHref
          else p.liveUrl.getD "") ∧
      ((openModal k s).liveDisplay = "inline-flex" ↔ p.liveUrl ≠ none)) ∧
    (truthyUrl none = false ∧ truthyUrl (some "") = false ∧
      ∀ u, u ≠ "" → truthyUrl (some u) = true) ∧
    openModal k s = openModalIn projects k s ∧
    (∀ (table : List Project) (q : Project), 0 ≤ k → table.get? k.toNat = some q →
      (openModalIn table k s).modalOpen = true ∧
      (openModalIn table k s).modalTitle = q.title ∧
      (openModalIn table k s).liveDisplay =
        (if q.liveUrl = none ∨ q.liveUrl = some "" then "none" else "inline-flex") ∧
      (openModalIn table k s).liveHref =
        (if q.liveUrl = none ∨ q.liveUrl = some "" then s.liveHref
          else q.liveUrl.getD "")) := by
  refine ⟨fun h => openModal_of_undefined (projectAt_out_of_range h) s,
    fun h0 h1 => projectAt_in_range h0 h1, fun p hp => ?_,
    ⟨rfl, rfl, fun u hu => (truthyUrl_iff (some u)).2 (by simp [hu])⟩, rfl,
    fun table q h0 hq => ?_⟩
  swap
  · rw [openModalIn_of_project h0 hq]
    exact ⟨rfl, rfl, ite_truthyUrl _ _ _, ite_truthyUrl _ _ _⟩
  obtain ⟨htruthy, hsome⟩ := projects_liveUrl p (projectAt_mem hp)
  have hexpl : ∀ (a b : String),
      (if truthyUrl p.liveUrl = true then a else b) =
        (if p.liveUrl = none ∨ p.liveUrl = some "" then b else a) := by
    intro a b
    by_cases ht : truthyUrl p.liveUrl = true
    · rw [if_pos ht, if_neg ((truthyUrl_iff _).1 ht)]
    · rw [if_neg ht, if_pos (by
        by_contra hne
        exact ht ((truthyUrl_iff _).2 hne))]
  rw [openModal_of_project hp]
  refine ⟨rfl, rfl, rfl, rfl, rfl, rfl, by simp, ?_, ?_, ?_⟩
  · show (if truthyUrl p.liveUrl = true then "inline-flex" else "none") = _
    exact hexpl _ _
  · show (if truthyUrl p.liveUrl = true then p.liveUrl.getD "" else s.liveHref) = _
    exact hexpl _ _
  · simp [htruthy, hsome]

theorem openModal_validates_witness :
    openModal 4 homeState = homeState ∧ openModal (-1) homeState = homeState ∧
    (openModal 1 homeState).modalTitle = "Writing On Air" ∧
    (openModal 1 homeState).modalStack =
      "<span class=\"stack-badge\">Python</span><span class=\"stack-badge\">OpenCV</span><span class=\"stack-badge\">Mediapipe</span>" ∧
    (openModal 1 homeState).liveDisplay = "inline-flex" ∧
    (openModal 1 homeState).liveHref = "https://example.com" ∧
    (openModalIn
      [{ title := "DevOps Monitor",
         description := "A system monitoring dashboard for tracking server health, deployment pipelines, container metrics, and automated alerting.",
         stack := ["Python", "Docker", "Grafana", "REST API"],
         githubUrl := "https://github.com/",
         liveUrl := none }] 0 homeState).liveDisplay = "none" :=
  have h := (openModal_validates 1 homeState).2.2.1
    { title := "Writing On Air",
      description := "A computer-vision based application that allows users to write in the air using hand gestures.",
      stack := ["Python", "OpenCV", "Mediapipe"],
      githubUrl := "https://github.com/CodeItAlone/WritingOnAir",
      liveUrl := some "https://example.com" } rfl
  ⟨(openModal_validates 4 homeState).1 (Or.inr (by decide)),
   (openModal_validates (-1) homeState).1 (Or.inl (by decide)),
   h.2.2.1, h.2.2.2.2.2.1.trans (by rfl), h.2.2.2.2.2.2.2.1.trans (by rfl),
   h.2.2.2.2.2.2.2.2.1.trans (by rfl),
   ((openModal_validates 0 homeState).2.2.2.2.2
      [{ title := "DevOps Monitor",
         description := "A system monitoring dashboard for tracking server health, deployment pipelines, container metrics, and automated alerting.",
         stack := ["Python", "Docker", "Grafana", "REST API"],
         githubUrl := "https://github.com/",
         liveUrl := none }] _ (by decide) rfl).2.2.1.trans (by simp)⟩

/-- C13: for a touch that starts at `a` and ends at `e`: with the modal open the touch end
changes nothing; with the modal closed and `|a - e| ≤ 50` it changes nothing; with
`|a - e| > 50` the requested section is `current + 1` when `a - e > 0` and `current - 1`
when `a - e < 0`, and `goToSection` is called with it (followed by the start of the
cooldown) exactly when it lies in `[0,5)` and `scrollCooldown` is false; otherwise the
touch end changes nothing. -/
theorem touch_swipe_threshold (a e : ℚ) (s : State) :
    (s.modalOpen = true → onTouchEnd e (onTouchStart a s) = onTouchStart a s) ∧
    (s.modalOpen = false → |a - e| ≤ 50 →
      onTouchEnd e (onTouchStart a s) = onTouchStart a s) ∧
    (0 < a - e → swipeTarget a e s.currentSection = s.currentSection + 1) ∧
    (a - e < 0 → swipeTarget a e s.currentSection = s.currentSection - 1) ∧
    (s.modalOpen = false → 50 < |a - e| →
      0 ≤ swipeTarget a e s.currentSection →
      swipeTarget a e s.currentSection < SECTION_COUNT → s.scrollCooldown = false →
      onTouchEnd e (onTouchStart a s) =
        setTimeout .cooldownEnd 1000
          { goToSection (swipeTarget a e s.currentSection) (onTouchStart a s) with
            scrollCooldown := true }) ∧
    (s.modalOpen = false → 50 < |a - e| →
      (swipeTarget a e s.currentSection < 0 ∨
        SECTION_COUNT ≤ swipeTarget a e s.currentSection ∨ s.scrollCooldown = true) →
      onTouchEnd e (onTouchStart a s) = onTouchStart a s) := by
  have hrw := onTouchEnd_onTouchStart a e s
  refine ⟨?_, ?_, ?_, ?_, ?_, ?_⟩
  · intro hm
    rw [hrw, if_pos hm]
  · intro hm hd
    rw [hrw, if_neg (by rw [hm]; simp), if_neg (not_lt.2 hd)]
  · intro h
    simp [swipeTarget, h]
  · intro h
    have : ¬ (0 < a - e) := by linarith
    simp only [swipeTarget, gt_iff_lt, this, if_false]
    ring
  · intro hm hd h0 h5 hc
    rw [hrw, if_neg (by rw [hm]; simp), if_pos hd, if_pos ⟨h0, h5, hc⟩]
  · intro hm hd hbad
    rw [hrw, if_neg (by rw [hm]; simp), if_pos hd, if_neg]
    rintro ⟨h0, h5, hc⟩
    rcases hbad with h | h | h
    · omega
    · omega
    · rw [hc] at h; cases h

theorem touch_swipe_threshold_witness :
    onTouchEnd 300 (onTouchStart 320 homeState) = onTouchStart 320 homeState ∧
    swipeTarget 400 300 homeState.currentSection = homeState.currentSection + 1 :=
  ⟨(touch_swipe_threshold 320 300 homeState).2.1 rfl (by norm_num [abs_le]),
   (touch_swipe_threshold 400 300 homeState).2.2.1 (by norm_num)⟩

/-- C14 (counterexample): with `window.devicePixelRatio = 1/2` (a page zoomed out to 50 %)
the tier `high`, which a desktop with 8 cores gets, renders at pixel ratio `1/2`, below the
pixel ratio `1` of the tier `low`: `low` does not select the smallest pixel ratio. -/
theorem dpr_low_not_smallest :
    getDeviceQuality (some 8) "Mozilla/5.0 (X11; Linux x86_64)" = .high ∧
    getDeviceQuality none "Mozilla/5.0 (X11; Linux x86_64)" = .low ∧
    dpr .high (1 / 2) = 1 / 2 ∧ dpr .low (1 / 2) = 1 ∧
    ¬ (dpr .low (1 / 2) ≤ dpr .high (1 / 2)) := by
  refine ⟨by decide, by decide, ?_, ?_, ?_⟩
  · rw [dpr_high]; norm_num
  · rw [dpr_low]
  · rw [dpr_high, dpr_low]; norm_num

/-- C14 (amended): `getDeviceQuality` returns `low` exactly when the user agent is mobile or
the core count is missing, zero or at most 2; `medium` exactly for a non-mobile device with
3..4 cores; `high` exactly for a non-mobile device with more than 4 cores.  The tier `low`
selects 400 background particles and pixel ratio 1, no antialiasing and the low-power
preference; its particle, galaxy, asteroid, orb and grid counts are the smallest of the
three tiers, and its pixel ratio is the smallest whenever `devicePixelRatio ≥ 1`. -/
theorem deviceQuality_tiers (hc : Option Int) (ua : String) (r : ℚ) :
    (getDeviceQuality hc ua = .low ↔
      isMobile ua = true ∨ hc = none ∨ ∃ c, hc = some c ∧ c ≤ 2) ∧
    (getDeviceQuality hc ua = .medium ↔
      isMobile ua = false ∧ ∃ c, hc = some c ∧ 3 ≤ c ∧ c ≤ 4) ∧
    (getDeviceQuality hc ua = .high ↔ isMobile ua = false ∧ ∃ c, hc = some c ∧ 4 < c) ∧
    particleCount .low = 400 ∧ dpr .low r = 1 ∧ antialias .low = false ∧
    powerPreference .low = "low-power" ∧
    (∀ q, particleCount .low ≤ particleCount q ∧ armParticles .low ≤ armParticles q ∧
      bulgeParticles .low ≤ bulgeParticles q ∧ hazeParticles .low ≤ hazeParticles q ∧
      asteroidCount .low ≤ asteroidCount q ∧ orbCount .low ≤ orbCount q ∧
      gridSize .low ≤ gridSize q ∧ (1 ≤ r → dpr .low r ≤ dpr q r)) := by
  refine ⟨?_, ?_, ?_, rfl, dpr_low r, rfl, rfl, ?_⟩
  · cases hc with
    | none => simp [getDeviceQuality_none]
    | some c =>
      rw [getDeviceQuality_some]
      by_cases hm : isMobile ua = true
      · simp [hm]
      · by_cases h2 : c ≤ 2
        · simp [h2]
        · by_cases h4 : c ≤ 4 <;> simp [hm, h2, h4]
  · cases hc with
    | none => simp [getDeviceQuality_none]
    | some c =>
      rw [getDeviceQuality_some]
      by_cases hm : isMobile ua = true
      · simp [hm]
      · by_cases h2 : c ≤ 2
        · simp [h2]
          intro _ _
          omega
        · by_cases h4 : c ≤ 4
          · simp [hm, h2, h4]
            omega
          · simp [hm, h2, h4]
  · cases hc with
    | none => simp [getDeviceQuality_none]
    | some c =>
      rw [getDeviceQuality_some]
      by_cases hm : isMobile ua = true
      · simp [hm]
      · by_cases h2 : c ≤ 2
        · simp [h2]
          intro _
          omega
        · by_cases h4 : c ≤ 4
          · simp [hm, h2, h4]
          · simp [hm, h2, h4]
            omega
  · intro q
    refine ⟨?_, ?_, ?_, ?_, ?_, ?_, ?_, ?_⟩
    · cases q <;> decide
    · cases q <;> decide
    · cases q <;> decide
    · cases q <;> decide
    · cases q <;> decide
    · cases q <;> decide
    · cases q <;> decide
    · intro hr
      cases q
      · exact le_refl _
      · rw [dpr_low, dpr_medium]
        exact le_min hr (by norm_num)
      · rw [dpr_low, dpr_high]
        exact le_min hr (by norm_num)

theorem deviceQuality_tiers_witness :
    getDeviceQuality (some 8) "Mozilla/5.0 (iPhone; CPU iPhone OS 17_0 like Mac OS X)" = .low ∧
    dpr .low 3 ≤ dpr .high 3 :=
  ⟨(deviceQuality_tiers (some 8) "Mozilla/5.0 (iPhone; CPU iPhone OS 17_0 like Mac OS X)"
      3).1.2 (Or.inl (by decide)),
   ((deviceQuality_tiers none "" 3).2.2.2.2.2.2.2 .high).2.2.2.2.2.2.2 (by norm_num)⟩

/-- C15: every state reachable from the initial state by events (clicks that call
`goToSection` with any integer, wheel, touch, key, window click, modal open and close,
time passing, timer callbacks) has `0 ≤ currentSection < SECTION_COUNT` and
`targetSection = currentSection`, so `CAMERA_POSITIONS[currentSection]` and the overlay id
of `currentSection` are defined. -/
theorem section_invariant (s : State) (hr : Reachable s) :
    0 ≤ s.currentSection ∧ s.currentSection < SECTION_COUNT ∧
    s.targetSection = s.currentSection ∧
    (∃ p, cameraAt s.currentSection = some p) ∧
    ∃ id, overlayId s.currentSection = some id := by
  obtain ⟨h0, h5, ht, _⟩ := navInv_of_reachable hr
  exact ⟨h0, h5, ht, cameraAt_some h0 h5, overlayId_some h0 h5⟩

theorem section_invariant_witness :
    0 ≤ (run [.navClick 7, .wheel 3, .navClick (-2), .keyDown "End"] homeState).currentSection ∧
    (run [.navClick 7, .wheel 3, .navClick (-2), .keyDown "End"] homeState).currentSection
      < SECTION_COUNT :=
  have h := section_invariant
    (run [.navClick 7, .wheel 3, .navClick (-2), .keyDown "End"] homeState)
    (reachable_run (reachable_init initial_homeState) _)
  ⟨h.1, h.2.1⟩

/-- C16: in every reachable state at most one overlay-reveal callback is pending and its
index is `currentSection`; whenever a pending reveal callback runs (in particular when the
event loop picks it as the next due timer), the only active overlay afterwards is the one
of the current section. -/
theorem no_stale_reveal (s : State) (hr : Reachable s) :
    (s.timers.filter isReveal).length ≤ 1 ∧
    (∀ t ∈ s.timers, ∀ idx, t.cb = .reveal idx → idx = s.currentSection) ∧
    (∀ t ∈ s.timers, isReveal t = true →
      ∃ id, overlayId s.currentSection = some id ∧
        (fire t.cb { s with timers := s.timers.erase t }).activeOverlays = [id]) ∧
    (∀ t, earliest s.timers = some t → isReveal t = true → t.due ≤ s.now →
      ∃ id, overlayId s.currentSection = some id ∧ (runTimer s).activeOverlays = [id]) := by
  have hinv := navInv_of_reachable hr
  have hfire : ∀ t ∈ s.timers, isReveal t = true →
      ∃ id, overlayId s.currentSection = some id ∧
        (fire t.cb { s with timers := s.timers.erase t }).activeOverlays = [id] := by
    intro t hm hrv
    obtain ⟨_, hov, a, _, ht⟩ := reveal_pending hinv hm hrv
    obtain ⟨id, hid⟩ := overlayId_some hinv.1 hinv.2.1
    refine ⟨id, hid, ?_⟩
    subst ht
    simp [fire, hid, hov, classAdd]
  refine ⟨?_, ?_, hfire, ?_⟩
  · cases hT : s.isTransitioning with
    | false => rw [(hinv.2.2.2.1 hT).2]; simp
    | true =>
      obtain ⟨a, _, halt⟩ := hinv.2.2.2.2 hT
      rcases halt with ⟨h1, _⟩ | ⟨h0, _⟩
      · rw [h1]; simp
      · rw [h0]; simp
  · intro t hm idx hcb
    have hrv : isReveal t = true := by simp [isReveal, hcb]
    obtain ⟨_, _, a, _, ht⟩ := reveal_pending hinv hm hrv
    rw [ht] at hcb
    injection hcb with h
    exact h.symm
  · intro t het hrv hd
    obtain ⟨id, hid, hf⟩ := hfire t (earliest_mem het) hrv
    refine ⟨id, hid, ?_⟩
    have : runTimer s = fire t.cb { s with timers := s.timers.erase t } := by
      simp [runTimer, het, hd]
    rw [this]
    exact hf

theorem no_stale_reveal_witness :
    ∃ id, overlayId (run [.keyDown "3", .elapse 500] homeState).currentSection = some id ∧
      (runTimer (run [.keyDown "3", .elapse 500] homeState)).activeOverlays = [id] :=
  (no_stale_reveal (run [.keyDown "3", .elapse 500] homeState)
    (reachable_run (reachable_init initial_homeState) _)).2.2.2
    ⟨400, .reveal 2⟩ (by decide) (by decide) (by decide)

/-- C17: with `reducedMotion` true, one call of `animate` replaces each camera coordinate
`p` by `p + (t - p) * 0.08`, where `t` is the matching coordinate of
`CAMERA_POSITIONS[currentSection]`, renders the frame, and leaves every other scene value
(planet angles, orb positions, card offsets, grid opacities, particle positions, light
positions, look-at point) as it was; the result does not depend on the pointer. -/
theorem animate_reducedMotion (sin cos : ℚ → ℚ) (delta elapsed : ℚ) (count : Nat)
    (s : State) (sc : Scene) (t : Vec3)
    (hrm : s.reducedMotion = true) (ht : cameraAt s.currentSection = some t) :
    animate sin cos delta elapsed count s sc =
      some { sc with
        cameraPosition :=
          { x := sc.cameraPosition.x + (t.x - sc.cameraPosition.x) * (8 / 100),
            y := sc.cameraPosition.y + (t.y - sc.cameraPosition.y) * (8 / 100),
            z := sc.cameraPosition.z + (t.z - sc.cameraPosition.z) * (8 / 100) },
        framesRendered := sc.framesRendered + 1 } ∧
    (∀ mx my px py : ℚ,
      animate sin cos delta elapsed count
        { s with mouseX := mx, mouseY := my, pointerX := px, pointerY := py } sc =
      animate sin cos delta elapsed count s sc) := by
  have hlerp : ∀ p q : ℚ, p + (q - p) * LERP_SPEED * 2 = p + (q - p) * (8 / 100) := by
    intro p q
    unfold LERP_SPEED
    ring
  constructor
  · simp only [animate, ht, hrm, if_true, hlerp]
  · intro mx my px py
    simp only [animate, ht, hrm, if_true]

theorem animate_reducedMotion_witness :
    animate (fun _ => 0) (fun _ => 0) (1 / 60) 2 400
      { homeState with reducedMotion := true, mouseX := 1, mouseY := -1,
                       pointerX := 1, pointerY := -1 } sampleScene =
    animate (fun _ => 0) (fun _ => 0) (1 / 60) 2 400
      { homeState with reducedMotion := true } sampleScene :=
  (animate_reducedMotion (fun _ => 0) (fun _ => 0) (1 / 60) 2 400
    { homeState with reducedMotion := true } sampleScene { x := 0, y := 0, z := 5 }
    rfl rfl).2 1 (-1) 1 (-1)

/-- C18: for a window of positive width `w` and height `h` and a pointer at `(x, y)` inside
it, `onMouseMove` sets `mouseX = 2x/w - 1` and `mouseY = 1 - 2y/h` (and the ray-pick
pointer to the same values), both in `[-1, 1]`; the left/top corner maps to `(-1, 1)` and
the right/bottom corner to `(1, -1)`; the handler has no guard and changes no other field,
so navigation and modal state are untouched whatever they are. -/
theorem onMouseMove_normalised (x y w h : ℚ) (s : State)
    (hw : 0 < w) (hh : 0 < h) (hx0 : 0 ≤ x) (hx1 : x ≤ w) (hy0 : 0 ≤ y) (hy1 : y ≤ h) :
    onMouseMove x y w h s =
      { s with mouseX := 2 * x / w - 1, mouseY := 1 - 2 * y / h,
               pointerX := 2 * x / w - 1, pointerY := 1 - 2 * y / h } ∧
    -1 ≤ 2 * x / w - 1 ∧ 2 * x / w - 1 ≤ 1 ∧ -1 ≤ 1 - 2 * y / h ∧ 1 - 2 * y / h ≤ 1 ∧
    (onMouseMove 0 0 w h s).mouseX = -1 ∧ (onMouseMove 0 0 w h s).mouseY = 1 ∧
    (onMouseMove w h w h s).mouseX = 1 ∧ (onMouseMove w h w h s).mouseY = -1 := by
  have e1 : x / w * 2 - 1 = 2 * x / w - 1 := by ring
  have e2 : -(y / h) * 2 + 1 = 1 - 2 * y / h := by ring
  have hxw0 : 0 ≤ x / w := div_nonneg hx0 hw.le
  have hxw1 : x / w ≤ 1 := (div_le_one hw).2 hx1
  have hyh0 : 0 ≤ y / h := div_nonneg hy0 hh.le
  have hyh1 : y / h ≤ 1 := (div_le_one hh).2 hy1
  have m1 : 2 * x / w = 2 * (x / w) := by ring
  have m2 : 2 * y / h = 2 * (y / h) := by ring
  refine ⟨?_, ?_, ?_, ?_, ?_, ?_, ?_, ?_, ?_⟩
  · simp only [onMouseMove, e1, e2]
  · rw [m1]; linarith
  · rw [m1]; linarith
  · rw [m2]; linarith
  · rw [m2]; linarith
  · simp [onMouseMove]
  · simp [onMouseMove]
  · simp only [onMouseMove, div_self hw.ne']
    norm_num
  · simp only [onMouseMove, div_self hh.ne']
    norm_num

theorem onMouseMove_normalised_witness :
    (onMouseMove 0 0 1280 720 homeState).mouseX = -1 ∧
    (onMouseMove 1280 720 1280 720 homeState).mouseY = -1 :=
  have h := onMouseMove_normalised 640 360 1280 720 homeState (by norm_num) (by norm_num)
    (by norm_num) (by norm_num) (by norm_num) (by norm_num)
  ⟨h.2.2.2.2.2.1, h.2.2.2.2.2.2.2.2⟩

/-- C19: in every reachable state `isTransitioning` is true exactly when one settle
callback is pending, and never more than one is pending; an accepted request schedules its
settle callback 1200 ms ahead as the only one, the lock stays held as long as fewer than
1200 ms have passed, whatever events arrive, and once 1200 ms have passed and the due
timers have run the lock is released. -/
theorem lock_timer_invariant (s : State) (hr : Reachable s) :
    (s.isTransitioning = true ↔ (s.timers.filter isSettle).length = 1) ∧
    (s.timers.filter isSettle).length ≤ 1 ∧
    (∀ i, 0 ≤ i → i < SECTION_COUNT → i ≠ s.currentSection → s.isTransitioning = false →
      (goToSection i s).timers.filter isSettle = [{ due := s.now + 1200, cb := .settle }] ∧
      (∀ es, (run es (goToSection i s)).now < s.now + 1200 →
        (run es (goToSection i s)).isTransitioning = true) ∧
      (advance 1200 (goToSection i s)).isTransitioning = false) := by
  have hinv := navInv_of_reachable hr
  refine ⟨?_, ?_, ?_⟩
  · cases hT : s.isTransitioning with
    | false => rw [(hinv.2.2.2.1 hT).1]; simp
    | true =>
      obtain ⟨a, hs, _⟩ := hinv.2.2.2.2 hT
      rw [hs]; simp
  · cases hT : s.isTransitioning with
    | false => rw [(hinv.2.2.2.1 hT).1]; simp
    | true =>
      obtain ⟨a, hs, _⟩ := hinv.2.2.2.2 hT
      rw [hs]; simp
  · intro i h0 h5 hc ht
    obtain ⟨hfs, _⟩ := accepted_filters hinv h0 h5 hc ht
    have hmem : ({ due := s.now + 1200, cb := .settle } : Timer) ∈
        (goToSection i s).timers := by
      have : ({ due := s.now + 1200, cb := .settle } : Timer) ∈
          (goToSection i s).timers.filter isSettle := by rw [hfs]; simp
      exact (List.mem_filter.1 this).1
    have hreach : Reachable (goToSection i s) := reachable_step hr (.navClick i)
    refine ⟨hfs, fun es hd => ?_, advance_releases hr h0 h5 hc ht⟩
    exact transitioning_of_settle_pending (navInv_of_reachable (reachable_run hreach es))
      (pending_of_not_due es hmem hd) rfl

theorem lock_timer_invariant_witness :
    (run [.elapse 1199, .timer, .timer, .wheel 1] (goToSection 2 homeState)).isTransitioning
      = true ∧
    (advance 1200 (goToSection 2 homeState)).isTransitioning = false :=
  have h := (lock_timer_invariant homeState (reachable_init initial_homeState)).2.2 2
    (by decide) (by decide) (by decide) rfl
  ⟨h.2.1 [.elapse 1199, .timer, .timer, .wheel 1] (by decide), h.2.2⟩

/-- C20: with the modal closed and no cooldown, a wheel event whose next index
`current + sign(deltaY)` lies in `[0,5)` sets `scrollCooldown = true` and schedules the
cooldown callback 1000 ms ahead, also when `goToSection` rejects the request: during a
transition, or with `deltaY = 0`, `currentSection` is unchanged and the cooldown starts all
the same; a wheel event whose next index is out of range (`deltaY < 0` at section 0,
`deltaY > 0` at section 4) returns the state unchanged, `scrollCooldown` still false; a
touch swipe over the threshold behaves likewise. -/
theorem gesture_starts_cooldown (s : State) (hm : s.modalOpen = false)
    (hc : s.scrollCooldown = false) :
    (∀ d, 0 ≤ s.currentSection + mathSign d → s.currentSection + mathSign d < SECTION_COUNT →
      (onWheel d s).scrollCooldown = true ∧
      ({ due := s.now + 1000, cb := .cooldownEnd } : Timer) ∈ (onWheel d s).timers) ∧
    (∀ d, 0 ≤ s.currentSection + mathSign d → s.currentSection + mathSign d < SECTION_COUNT →
      s.isTransitioning = true →
      (onWheel d s).currentSection = s.currentSection ∧ (onWheel d s).scrollCooldown = true) ∧
    (0 ≤ s.currentSection → s.currentSection < SECTION_COUNT →
      (onWheel 0 s).currentSection = s.currentSection ∧ (onWheel 0 s).scrollCooldown = true) ∧
    (∀ d, (s.currentSection + mathSign d < 0 ∨ SECTION_COUNT ≤ s.currentSection + mathSign d) →
      onWheel d s = s ∧ (onWheel d s).scrollCooldown = false) ∧
    (∀ d, d < 0 → s.currentSection = 0 → onWheel d s = s) ∧
    (∀ d, 0 < d → s.currentSection = 4 → onWheel d s = s) ∧
    (∀ y, 50 < |s.touchStartY - y| → 0 ≤ swipeTarget s.touchStartY y s.currentSection →
      swipeTarget s.touchStartY y s.currentSection < SECTION_COUNT →
      (onTouchEnd y s).scrollCooldown = true ∧
      (s.isTransitioning = true → (onTouchEnd y s).currentSection = s.currentSection)) := by
  have hguard : ¬ (s.scrollCooldown = true ∨ s.modalOpen = true) := by simp [hm, hc]
  have hin : ∀ d, 0 ≤ s.currentSection + mathSign d →
      s.currentSection + mathSign d < SECTION_COUNT →
      onWheel d s = setTimeout .cooldownEnd 1000
        { goToSection (s.currentSection + mathSign d) s with scrollCooldown := true } := by
    intro d h0 h5
    rw [onWheel_unfold, if_neg hguard, if_pos ⟨h0, h5⟩]
  have hout : ∀ d, (s.currentSection + mathSign d < 0 ∨
      SECTION_COUNT ≤ s.currentSection + mathSign d) → onWheel d s = s := by
    intro d hbad
    rw [onWheel_unfold, if_neg hguard, if_neg]
    rintro ⟨h0, h5⟩
    rcases hbad with h | h <;> omega
  refine ⟨?_, ?_, ?_, ?_, ?_, ?_, ?_⟩
  · intro d h0 h5
    rw [hin d h0 h5]
    refine ⟨rfl, ?_⟩
    show _ ∈ (goToSection (s.currentSection + mathSign d) s).timers ++
      [{ due := (goToSection (s.currentSection + mathSign d) s).now + 1000,
         cb := .cooldownEnd }]
    rw [goToSection_now]
    simp
  · intro d h0 h5 ht
    rw [hin d h0 h5]
    exact ⟨goToSection_locked_currentSection _ ht, rfl⟩
  · intro h0 h5
    have hs : mathSign 0 = 0 := by simp [mathSign]
    rw [hin 0 (by rw [hs]; omega) (by rw [hs]; omega), hs]
    refine ⟨?_, rfl⟩
    show (goToSection (s.currentSection + 0) s).currentSection = s.currentSection
    rw [goToSection_rejected (Or.inr (Or.inr (Or.inl (by omega))))]
  · intro d hbad
    rw [hout d hbad]
    exact ⟨rfl, hc⟩
  · intro d hd h0
    have hs : mathSign d = -1 := by
      have : ¬ (0 < d) := by linarith
      simp [mathSign, this, hd]
    exact hout d (Or.inl (by rw [hs, h0]; decide))
  · intro d hd h4
    have hs : mathSign d = 1 := by simp [mathSign, hd]
    exact hout d (Or.inr (by rw [hs, h4]; decide))
  · intro y hd h0 h5
    have he : onTouchEnd y s = setTimeout .cooldownEnd 1000
        { goToSection (swipeTarget s.touchStartY y s.currentSection) s with
          scrollCooldown := true } := by
      rw [onTouchEnd_unfold, if_neg (by rw [hm]; simp), if_pos hd, if_pos ⟨h0, h5, hc⟩]
    rw [he]
    exact ⟨rfl, fun ht => goToSection_locked_currentSection _ ht⟩

theorem gesture_starts_cooldown_witness :
    (onWheel 0 homeState).currentSection = homeState.currentSection ∧
    (onWheel 0 homeState).scrollCooldown = true ∧
    onWheel (-5) homeState = homeState :=
  have h := gesture_starts_cooldown homeState rfl rfl
  ⟨(h.2.2.1 (by decide) (by decide)).1, (h.2.2.1 (by decide) (by decide)).2,
   h.2.2.2.2.1 (-5) (by norm_num) rfl⟩

/-- C21 (counterexample): the script computes in binary64 arithmetic.  On the page at rest
on section 1, with the camera at `(0, 0, 5)` and the goal `z = -10`, two frames leave
`z = 8610882487532389 / 2^51` (printed `3.8240000000000003`): the signed distance to the
goal is not `0.96^2` times the initial one, and `z` is not even the binary64 number nearest
to the exact value `3.824`. -/
theorem camera_easing_double_not_exact :
    aboutState.reducedMotion = false ∧
    cameraAt aboutState.currentSection = some { x := 0, y := 1 / 2, z := -10 } ∧
    (animateCameraN roundDouble aboutState { x := 0, y := 1 / 2, z := -10 } 2
      { x := 0, y := 0, z := 5 }).z = 8610882487532389 / 2251799813685248 ∧
    (cameraGoal roundDouble aboutState { x := 0, y := 1 / 2, z := -10 }).z -
      (animateCameraN roundDouble aboutState { x := 0, y := 1 / 2, z := -10 } 2
        { x := 0, y := 0, z := 5 }).z ≠
      (96 / 100) ^ 2 *
        ((cameraGoal roundDouble aboutState { x := 0, y := 1 / 2, z := -10 }).z - 5) ∧
    (animateCameraN roundDouble aboutState { x := 0, y := 1 / 2, z := -10 } 2
      { x := 0, y := 0, z := 5 }).z ≠ roundDouble (-10 - (96 / 100) ^ 2 * (-10 - 5)) := by
  refine ⟨by decide, cameraAt_aboutState, two_frames_z, ?_, ?_⟩
  · rw [two_frames_z]
    show (-10 : ℚ) - 8610882487532389 / 2251799813685248 ≠ (96 / 100) ^ 2 * (-10 - 5)
    norm_num
  · rw [two_frames_z, roundDouble_ideal_two_frames]
    norm_num

/-- C21 (amended): with `reducedMotion` false, one frame replaces every camera coordinate
`p` by `fl(p + fl(fl(g - p) * fl(0.04)))`, where `fl` rounds to the nearest binary64 number
and `g` is the coordinate's goal: `fl(tx + fl(mouseX * fl(0.3)))`, `fl(ty + fl(mouseY *
fl(0.15)))` and `tz` for `(tx, ty, tz) = CAMERA_POSITIONS[currentSection]`.  With the
section and the pointer held fixed and the camera starting at binary64 coordinates, after
any number of frames every coordinate lies between its start and its goal (no overshoot),
the next frame never increases its distance to the goal (monotone approach), and a camera
that starts at the goal stays there.  Pointer and start are taken below `2^1000` in
magnitude, where no operation of the script overflows.  The rounding `fl` is pinned down:
its result is a binary64 number `m * 2^j` (`|m| ≤ 2^53`, `j ≥ -1074`), every such number
with `|m| < 2^53` is left as it is, the result is at least as near to the argument as any
number that `fl` leaves as it is, and a tie goes to the even significand
(`2^53 + 1` to `2^53`, `2^53 + 3` to `2^53 + 4`). -/
theorem camera_easing_double (s : State) (t p : Vec3)
    (hrm : s.reducedMotion = false) (ht : cameraAt s.currentSection = some t)
    (hpx : roundDouble p.x = p.x) (hpy : roundDouble p.y = p.y)
    (hpz : roundDouble p.z = p.z)
    (_hrange : |s.mouseX| ≤ 2 ^ 1000 ∧ |s.mouseY| ≤ 2 ^ 1000 ∧
      |p.x| ≤ 2 ^ 1000 ∧ |p.y| ≤ 2 ^ 1000 ∧ |p.z| ≤ 2 ^ 1000) :
    animateCamera roundDouble s t p =
      { x := roundDouble (p.x + roundDouble (roundDouble
          (roundDouble (t.x + roundDouble (s.mouseX * roundDouble (3 / 10))) - p.x) *
            roundDouble (4 / 100))),
        y := roundDouble (p.y + roundDouble (roundDouble
          (roundDouble (t.y + roundDouble (s.mouseY * roundDouble (15 / 100))) - p.y) *
            roundDouble (4 / 100))),
        z := roundDouble (p.z + roundDouble (roundDouble (t.z - p.z) *
            roundDouble (4 / 100))) } ∧
    (∀ n,
      Between p.x (cameraGoal roundDouble s t).x (animateCameraN roundDouble s t n p).x ∧
      Between p.y (cameraGoal roundDouble s t).y (animateCameraN roundDouble s t n p).y ∧
      Between p.z (cameraGoal roundDouble s t).z (animateCameraN roundDouble s t n p).z ∧
      |(cameraGoal roundDouble s t).x - (animateCameraN roundDouble s t (n + 1) p).x| ≤
        |(cameraGoal roundDouble s t).x - (animateCameraN roundDouble s t n p).x| ∧
      |(cameraGoal roundDouble s t).y - (animateCameraN roundDouble s t (n + 1) p).y| ≤
        |(cameraGoal roundDouble s t).y - (animateCameraN roundDouble s t n p).y| ∧
      |(cameraGoal roundDouble s t).z - (animateCameraN roundDouble s t (n + 1) p).z| ≤
        |(cameraGoal roundDouble s t).z - (animateCameraN roundDouble s t n p).z| ∧
      (p = cameraGoal roundDouble s t →
        animateCameraN roundDouble s t n p = cameraGoal roundDouble s t)) ∧
    (∀ x : ℚ,
      (∃ m j : ℤ, |m| ≤ 2 ^ 53 ∧ -1074 ≤ j ∧ roundDouble x = (m : ℚ) * 2 ^ j) ∧
      ∀ y : ℚ, roundDouble y = y → |roundDouble x - x| ≤ |y - x|) ∧
    (∀ m j : ℤ, |m| < 2 ^ 53 → -1074 ≤ j →
      roundDouble ((m : ℚ) * 2 ^ j) = (m : ℚ) * 2 ^ j) ∧
    roundDouble (2 ^ 53 + 1) = 2 ^ 53 ∧ roundDouble (2 ^ 53 + 3) = 2 ^ 53 + 4 := by
  obtain ⟨_, _, htz⟩ := cameraAt_double ht
  obtain ⟨hgx, hgy, hgz⟩ := cameraGoal_double s htz
  refine ⟨?_, ?_, fun x => ⟨roundDouble_is_double x, fun y hy => roundDouble_nearest x y hy⟩,
    fun m j hm hj => roundDouble_of_rep hm hj, roundDouble_tie_down, roundDouble_tie_up⟩
  · rw [animateCamera_normal roundDouble t p hrm]
    rfl
  · intro n
    obtain ⟨⟨hx, hy, hz⟩, bx, by', bz⟩ := animateCameraN_between hrm htz hpx hpy hpz n
    have hstep : animateCameraN roundDouble s t (n + 1) p =
        animateCamera roundDouble s t (animateCameraN roundDouble s t n p) := rfl
    refine ⟨bx, by', bz, ?_, ?_, ?_, ?_⟩
    · rw [hstep, animateCamera_normal roundDouble t _ hrm]
      exact between_abs (lerp_between hx hgx)
    · rw [hstep, animateCamera_normal roundDouble t _ hrm]
      exact between_abs (lerp_between hy hgy)
    · rw [hstep, animateCamera_normal roundDouble t _ hrm]
      exact between_abs (lerp_between hz hgz)
    · intro hstart
      subst hstart
      exact vec3_ext (between_self bx) (between_self by') (between_self bz)

theorem camera_easing_double_witness :
    Between (5 : ℚ) (cameraGoal roundDouble aboutState { x := 0, y := 1 / 2, z := -10 }).z
      (animateCameraN roundDouble aboutState { x := 0, y := 1 / 2, z := -10 } 2
        { x := 0, y := 0, z := 5 }).z ∧
    Between (0 : ℚ) (cameraGoal roundDouble pointerState { x := 0, y := 0, z := 5 }).x
      (animateCameraN roundDouble pointerState { x := 0, y := 0, z := 5 } 3
        { x := 0, y := 0, z := 5 }).x :=
  ⟨((camera_easing_double aboutState { x := 0, y := 1 / 2, z := -10 }
      { x := 0, y := 0, z := 5 } (by decide) cameraAt_aboutState roundDouble_zero
      roundDouble_zero (by simpa using roundDouble_intCast (m := 5) (by norm_num))
      aboutState_range).2.1 2).2.2.1,
   ((camera_easing_double pointerState { x := 0, y := 0, z := 5 }
      { x := 0, y := 0, z := 5 } rfl rfl roundDouble_zero
      roundDouble_zero (by simpa using roundDouble_intCast (m := 5) (by norm_num))
      pointerState_range).2.1 3).1⟩

end Portfolio
